import Mathlib

/-!
Verification of the dynamic scoring subsystem of the sphere-server repository.

The development shallowly embeds the scoring core:
* `src/utils/compareScoring.js` — the device comparison ranking engine
  (weight normalization, chipset keyword table and regex heuristics, display,
  camera, battery and price-value scoring, deterministic ranking),
* `src/utils/hookScore.js` — hook-score weight normalization and the clamped
  SQL composite (`final_score`) plus the freshness decay column,
* `src/utils/trendingScore.js` — trending-score weight normalization and the
  cohort-normalized SQL composite (`scored`), and the advisory-lock
  orchestration shared by both recompute jobs.

Modelling conventions:
* JavaScript numbers are embedded as `ℚ` (exact rational arithmetic; the SQL
  columns are Postgres `numeric`, also exact), except the freshness decay and
  the hook composite, which use `EXP` and are embedded over `ℝ`.
* A JavaScript value that is fed through `toFiniteNumber` / `Number(...)` is
  embedded post-parse as `Option ℚ` (`none` = null/absent/unparseable/NaN) or
  as `JsNum` where the code distinguishes an absent key from a non-finite one.
* `toObject` (JSON string parsing with fallback to `{}`) is embedded by taking
  spec blocks as structures whose fields default to the empty/absent value: an
  unparseable or empty spec block is exactly the all-default structure.
* Regex heuristics are embedded as explicit scanners over the character list
  of the (already lowercased, whitespace-collapsed) text, reproducing the
  leftmost-match semantics of the JavaScript regexes involved, none of which
  needs backtracking.
-/

set_option maxRecDepth 8000

set_option allowUnsafeReducibility true

attribute [local semireducible] Rat.add Rat.mul Rat.inv Rat.sub Rat.ofScientific

/-- JS `Math.min` on two rationals (kernel-reducible definition). -/
def jsMin (a b : ℚ) : ℚ := if a ≤ b then a else b

/-- JS `Math.max` on two rationals (kernel-reducible definition). -/
def jsMax (a b : ℚ) : ℚ := if a ≤ b then b else a

/-- JS helper `clamp(value, min, max) = Math.min(max, Math.max(min, value))`
from `src/utils/compareScoring.js`. -/
def clamp (value lo hi : ℚ) : ℚ := jsMin hi (jsMax lo value)

/-- `Number.EPSILON` = 2⁻⁵², used by `roundOne`. -/
def numberEpsilon : ℚ := 1 / 2 ^ 52

/-- JS helper `roundOne(value) = Math.round((value + Number.EPSILON) * 10) / 10`
from `src/utils/compareScoring.js`; `Math.round x = ⌊x + 1/2⌋`, which is
Mathlib's `round`. -/
def roundOne (value : ℚ) : ℚ := ((round ((value + numberEpsilon) * 10) : ℤ) : ℚ) / 10

/-- Character class of the JS regex `\s` (the ASCII cases plus NBSP; the
texts scored by the engine contain no exotic Unicode whitespace). -/
def isJsWhitespace (c : Char) : Bool :=
  c = ' ' || c = '\t' || c = '\n' || c = '\r' || c = '\x0b' || c = '\x0c' || c = '\xa0'

/-- Maps every whitespace character to a plain space — first half of
`.replace(/\s+/g, " ")`. -/
def wsToSpace (s : List Char) : List Char :=
  s.map (fun c => if isJsWhitespace c then ' ' else c)

/-- Collapses runs of spaces to a single space — second half of
`.replace(/\s+/g, " ")`. -/
def dedupSpaces : List Char → List Char
  | [] => []
  | [c] => [c]
  | a :: b :: rest =>
    if a = ' ' && b = ' ' then dedupSpaces (b :: rest)
    else a :: dedupSpaces (b :: rest)

/-- JS `String.prototype.trim`: strips leading and trailing whitespace. -/
def trimWs (s : List Char) : List Char :=
  ((s.dropWhile (fun c => isJsWhitespace c)).reverse.dropWhile (fun c => isJsWhitespace c)).reverse

/-- JS `.trim()` on a `String`. -/
def jsTrim (s : String) : String := ⟨trimWs s.data⟩

/-- `normalizeText` from `src/utils/compareScoring.js`:
`String(value || "").toLowerCase().replace(/\s+/g, " ").trim()`. -/
def normalizeText (s : String) : String :=
  ⟨trimWs (dedupSpaces (wsToSpace (s.data.map Char.toLower)))⟩

/-- Substring test on character lists — JS `String.prototype.includes`. -/
def containsSub : List Char → List Char → Bool
  | [], needle => needle.isEmpty
  | c :: t, needle => needle.isPrefixOf (c :: t) || containsSub t needle

/-- JS `hay.includes(needle)` on `String`s. -/
def strIncludes (hay needle : String) : Bool := containsSub hay.data needle.data

/-- JS `a || b` for strings (empty string is falsy). -/
def jsOrString (a b : String) : String := if a = "" then b else a

/-- First non-`none` entry — the candidate-chain pattern the extractors use. -/
def firstSome (l : List (Option ℚ)) : Option ℚ :=
  l.foldr (fun o acc => o <|> acc) none

/-- Decimal digit test, regex `[0-9]`. -/
def isDigitChar (c : Char) : Bool := '0' ≤ c && c ≤ '9'

/-- Numeric value of a decimal digit character. -/
def digitVal (c : Char) : ℕ := c.toNat - '0'.toNat

/-- `Number(...)` on a non-empty string of decimal digits. -/
def digitsToNat (l : List Char) : ℕ :=
  l.foldl (fun acc c => acc * 10 + digitVal c) 0

/-- Consumes a literal from the front of the input: `some rest` when the
first argument is a prefix, else `none`. -/
def dropLit : List Char → List Char → Option (List Char)
  | [], rest => some rest
  | _, [] => none
  | n :: ns, c :: cs => if n = c then dropLit ns cs else none

/-- Attempts the regex `snapdragon\s*([0-9])\s*gen\s*([0-9]+)` anchored at the
start of the input, returning the two captures (series, gen). -/
def matchSnapdragonAt (cs : List Char) : Option (ℕ × ℕ) := do
  let r1 ← dropLit ("snapdragon".data) cs
  let r2 := r1.dropWhile isJsWhitespace
  match r2 with
  | d :: r3 =>
    if isDigitChar d then
      let r4 := r3.dropWhile isJsWhitespace
      let r5 ← dropLit ("gen".data) r4
      let r6 := r5.dropWhile isJsWhitespace
      let ds := r6.takeWhile isDigitChar
      if ds.isEmpty then none else some (digitVal d, digitsToNat ds)
    else none
  | [] => none

/-- Attempts the regex `dimensity\s*([0-9]{4})` anchored at the start of the
input, returning the four-digit capture. -/
def matchDimensityAt (cs : List Char) : Option ℕ := do
  let r1 ← dropLit ("dimensity".data) cs
  let r2 := r1.dropWhile isJsWhitespace
  match r2 with
  | a :: b :: c :: d :: _ =>
    if isDigitChar a && isDigitChar b && isDigitChar c && isDigitChar d then
      some (digitsToNat [a, b, c, d])
    else none
  | _ => none

/-- Attempts the regex `apple\s*a([0-9]{2})|a([0-9]{2})\s*(pro|bionic)?`
anchored at the start of the input (first alternative preferred at the same
position, as in JS), returning the two-digit chip number capture. -/
def matchAppleAt (cs : List Char) : Option ℕ :=
  (do
    let r1 ← dropLit ("apple".data) cs
    let r2 := r1.dropWhile isJsWhitespace
    let r3 ← dropLit (['a']) r2
    match r3 with
    | d1 :: d2 :: _ =>
      if isDigitChar d1 && isDigitChar d2 then some (digitsToNat [d1, d2]) else none
    | _ => none) <|>
  (match cs with
    | 'a' :: d1 :: d2 :: _ =>
      if isDigitChar d1 && isDigitChar d2 then some (digitsToNat [d1, d2]) else none
    | _ => none)

/-- Leftmost-match search: tries the anchored matcher at every position, as
`String.prototype.match` does for the regexes above. -/
def scanFirst {α : Type} (m : List Char → Option α) : List Char → Option α
  | [] => m []
  | c :: rest =>
    match m (c :: rest) with
    | some r => some r
    | none => scanFirst m rest

/-- One entry of the chipset keyword table. -/
structure ChipsetRule where
  keyword : String
  score : ℚ
deriving DecidableEq

/-- `DEFAULT_CHIPSET_RULES` from `src/utils/compareScoring.js`. -/
def DEFAULT_CHIPSET_RULES : List ChipsetRule :=
  [ { keyword := "snapdragon 8 elite", score := 100 },
    { keyword := "snapdragon 8 gen 4", score := 98 },
    { keyword := "dimensity 9400", score := 97 },
    { keyword := "a18 pro", score := 98 },
    { keyword := "apple a18", score := 98 },
    { keyword := "snapdragon 8 gen 3", score := 95 },
    { keyword := "dimensity 9300", score := 92 },
    { keyword := "a17 pro", score := 98 },
    { keyword := "snapdragon 8 gen 2", score := 89 },
    { keyword := "dimensity 9200", score := 89 },
    { keyword := "apple a16", score := 89 },
    { keyword := "snapdragon 7 gen 3", score := 75 },
    { keyword := "dimensity 8300", score := 75 },
    { keyword := "snapdragon 7", score := 72 },
    { keyword := "dimensity 8", score := 72 },
    { keyword := "tensor g3", score := 74 },
    { keyword := "tensor g2", score := 72 },
    { keyword := "snapdragon 6", score := 62 },
    { keyword := "dimensity 7", score := 62 },
    { keyword := "exynos 13", score := 62 },
    { keyword := "snapdragon 4", score := 50 },
    { keyword := "helio", score := 50 },
    { keyword := "unisoc", score := 50 },
    { keyword := "exynos 8", score := 50 } ]

/-- `scoreChipset(processorText, chipsetRules)` from
`src/utils/compareScoring.js`: empty normalized text scores 45; the first
matching keyword-table entry wins (empty keywords are skipped); otherwise the
Snapdragon, Dimensity and Apple regex heuristics are tried, then the tensor
and exynos substring fallbacks, and finally the fixed neutral score 60. -/
def scoreChipset (processorText : String) (chipsetRules : List ChipsetRule) : ℚ :=
  let text := normalizeText processorText
  if text = "" then 45
  else
    match chipsetRules.find? (fun rule => rule.keyword != "" && strIncludes text rule.keyword) with
    | some rule => clamp rule.score 0 100
    | none =>
      match scanFirst matchSnapdragonAt text.data with
      | some sg => clamp (50 + (sg.1 : ℚ) * 8 + (sg.2 : ℚ) * 2) 52 96
      | none =>
        match scanFirst matchDimensityAt text.data with
        | some model =>
          if 9400 ≤ model then 97
          else if 9300 ≤ model then 92
          else if 8300 ≤ model then 78
          else if 8200 ≤ model then 74
          else if 7300 ≤ model then 66
          else 58
        | none =>
          match scanFirst matchAppleAt text.data with
          | some chipNum => clamp (74 + ((chipNum : ℚ) - 14) * 4) 70 99
          | none =>
            if strIncludes text ("tensor") then 74
            else if strIncludes text ("exynos") then 68
            else 60

example : scoreChipset ("Snapdragon 8 Gen 3") DEFAULT_CHIPSET_RULES = 95 := by decide
example : scoreChipset ("Snapdragon 8 Gen 5") DEFAULT_CHIPSET_RULES = 96 := by decide
example : scoreChipset ("") DEFAULT_CHIPSET_RULES = 45 := by decide
example : scoreChipset ("mystery chip") DEFAULT_CHIPSET_RULES = 60 := by decide

/-- One raw entry of a caller-supplied chipset rule table: `keyword` models the
coalesced `row?.keyword ?? row?.match ?? row?.pattern` and `score` models
`toFiniteNumber(row?.score)`. -/
structure RawChipsetRule where
  keyword : String := ""
  score : Option ℚ := none
deriving DecidableEq

/-- Recursion of `normalizeChipsetRules`: dedups normalized keywords (tracked
in `seen`), skips empty keywords, rounds and clamps scores (absent score
defaults to 60). -/
def normalizeChipsetRulesGo (seen : List String) : List RawChipsetRule → List ChipsetRule
  | [] => []
  | row :: rest =>
    let keyword := String.mk ((normalizeText row.keyword).data.take 120)
    if keyword = "" || seen.contains keyword then normalizeChipsetRulesGo seen rest
    else
      { keyword := keyword, score := clamp ((round (row.score.getD 60) : ℤ) : ℚ) 0 100 } ::
        normalizeChipsetRulesGo (keyword :: seen) rest

/-- `normalizeChipsetRules(input)` from `src/utils/compareScoring.js`: an empty
(or fully filtered-out) rule list falls back to `DEFAULT_CHIPSET_RULES`; at
most 200 rules are kept. -/
def normalizeChipsetRules (input : List RawChipsetRule) : List ChipsetRule :=
  let rules := normalizeChipsetRulesGo [] input
  if rules.isEmpty then DEFAULT_CHIPSET_RULES else rules.take 200

/-- A JavaScript numeric-ish value as seen by the weight normalizers:
`missing` = the key is absent from the supplied object, `nonfinite` =
`Number(...)` yields NaN/±Infinity, `val q` = a finite number. -/
inductive JsNum where
  | missing
  | nonfinite
  | val (q : ℚ)
deriving DecidableEq

/-- `toNonNegativeNumber(value, fallback)` from `src/utils/hookScore.js`:
non-finite or negative values fall back. An absent key reaches this function
as the (finite, non-negative) default itself, so `missing` also yields the
fallback. -/
def toNonNegativeNumber (value : JsNum) (fallback : ℚ) : ℚ :=
  match value with
  | .val q => if q < 0 then fallback else q
  | _ => fallback

/-- `normalizeWeights(weights, defaults)` from `src/utils/hookScore.js`
(generic over the default key set, like the source): sanitizes each key with
`toNonNegativeNumber`, and if the sanitized total is ≤ 0 substitutes the full
default set with total `fallbackTotal || 1`. Returns (weight list, total). -/
def hookSanitized (weights : String → JsNum) (defaults : List (String × ℚ)) :
    List (String × ℚ) :=
  defaults.map (fun p => (p.1, toNonNegativeNumber (weights p.1) p.2))

def hookNormalizeWeights (weights : String → JsNum) (defaults : List (String × ℚ)) :
    List (String × ℚ) × ℚ :=
  let normalized := hookSanitized weights defaults
  let total := (normalized.map (fun p => p.2)).sum
  if total ≤ 0 then
    let fallbackTotal := (defaults.map (fun p => p.2)).sum
    (defaults, if fallbackTotal = 0 then 1 else fallbackTotal)
  else
    (normalized, total)

/-- `DEFAULT_BUYER_INTENT_WEIGHTS` from `src/utils/hookScore.js`. -/
def DEFAULT_BUYER_INTENT_WEIGHTS : List (String × ℚ) :=
  [("views", 0.55), ("compares", 0.3), ("wishlist", 0.15)]

/-- `DEFAULT_TREND_VELOCITY_WEIGHTS` from `src/utils/hookScore.js`. -/
def DEFAULT_TREND_VELOCITY_WEIGHTS : List (String × ℚ) :=
  [("views", 0.7), ("compares", 0.3)]

/-- `DEFAULT_HOOK_SCORE_WEIGHTS` from `src/utils/hookScore.js`. -/
def DEFAULT_HOOK_SCORE_WEIGHTS : List (String × ℚ) :=
  [("buyer_intent", 0.5), ("trend_velocity", 0.3), ("freshness", 0.2)]

/-- Caller-supplied weights for `normalizeWeights` of
`src/utils/trendingScore.js`. -/
structure TrendingWeightsIn where
  views : JsNum := .missing
  compares : JsNum := .missing
  velocity : JsNum := .missing
deriving DecidableEq

/-- Normalized weight set of `src/utils/trendingScore.js`. -/
structure TrendingWeights where
  views : ℚ
  compares : ℚ
  velocity : ℚ
  total : ℚ
deriving DecidableEq

/-- The merge `{ ...DEFAULT_WEIGHTS, ...(weights || {}) }` followed by
`Number(...)` for one key of `src/utils/trendingScore.js`: an absent key takes
the default, a non-finite value stays non-finite (`none`). -/
def trendMergedValue (value : JsNum) (defaultValue : ℚ) : Option ℚ :=
  match value with
  | .missing => some defaultValue
  | .nonfinite => none
  | .val q => some q

/-- `safe(n) = Number.isFinite(n) && n >= 0 ? n : 0` from
`src/utils/trendingScore.js` — note: 0, not the per-key default. -/
def trendSafe (n : Option ℚ) : ℚ :=
  match n with
  | some q => if 0 ≤ q then q else 0
  | none => 0

/-- `normalizeWeights(weights)` from `src/utils/trendingScore.js`: defaults
views 0.4 / compares 0.4 / velocity 0.2; negative or non-finite values are
zeroed by `safe`; a non-positive total substitutes the defaults with total 1. -/
def trendingNormalizeWeights (weights : TrendingWeightsIn) : TrendingWeights :=
  let vw := trendSafe (trendMergedValue weights.views 0.4)
  let cw := trendSafe (trendMergedValue weights.compares 0.4)
  let velw := trendSafe (trendMergedValue weights.velocity 0.2)
  let total := vw + cw + velw
  if total ≤ 0 then { views := 0.4, compares := 0.4, velocity := 0.2, total := 1 }
  else { views := vw, compares := cw, velocity := velw, total := total }

/-- Caller-supplied weights for `normalizeWeights` of
`src/utils/compareScoring.js`: each field models
`toFiniteNumber(source[key] ?? alias)` (for `priceValue` the alias is
`source.price_value`). -/
structure CompareWeightsIn where
  performance : Option ℚ := none
  display : Option ℚ := none
  camera : Option ℚ := none
  battery : Option ℚ := none
  priceValue : Option ℚ := none
deriving DecidableEq

/-- A compare-scoring weight vector over the five `WEIGHT_KEYS`. -/
structure CompareWeights where
  performance : ℚ
  display : ℚ
  camera : ℚ
  battery : ℚ
  priceValue : ℚ
deriving DecidableEq

/-- `DEFAULT_COMPARE_WEIGHTS` from `src/utils/compareScoring.js`. -/
def DEFAULT_COMPARE_WEIGHTS : CompareWeights :=
  { performance := 0.36, display := 0.2, camera := 0.2, battery := 0.14, priceValue := 0.1 }

/-- The per-key sanitizer of `compareScoring.js`'s `normalizeWeights`:
`value != null && value >= 0 ? value : DEFAULT_COMPARE_WEIGHTS[key]`. -/
def compareSanitizeWeight (value : Option ℚ) (fallback : ℚ) : ℚ :=
  match value with
  | some v => if 0 ≤ v then v else fallback
  | none => fallback

/-- Sum of a compare weight vector over `WEIGHT_KEYS` order. -/
def compareWeightsSum (w : CompareWeights) : ℚ :=
  w.performance + w.display + w.camera + w.battery + w.priceValue

/-- The per-key sanitize loop of `compareScoring.js`'s `normalizeWeights`
(`raw[key] = ...` over `WEIGHT_KEYS`). -/
def compareWeightsRaw (input : CompareWeightsIn) : CompareWeights :=
  { performance := compareSanitizeWeight input.performance 0.36
    display := compareSanitizeWeight input.display 0.2
    camera := compareSanitizeWeight input.camera 0.2
    battery := compareSanitizeWeight input.battery 0.14
    priceValue := compareSanitizeWeight input.priceValue 0.1 }

/-- The percent-style rescale of `compareScoring.js`'s `normalizeWeights`:
when the raw sum exceeds 1.5 every key is divided by 100. -/
def compareWeightsRescaled (raw : CompareWeights) : CompareWeights :=
  if 1.5 < compareWeightsSum raw then
    { performance := raw.performance / 100, display := raw.display / 100,
      camera := raw.camera / 100, battery := raw.battery / 100,
      priceValue := raw.priceValue / 100 }
  else raw

/-- The share-normalization tail of `compareScoring.js`'s `normalizeWeights`:
non-positive total substitutes the full default set; otherwise each key is
divided by the total and clamped into [0,1], and any residual (1 − sum) is
added onto the first key (`performance`), clamped. -/
def compareWeightsShares (raw : CompareWeights) : CompareWeights :=
  let total := compareWeightsSum raw
  if total ≤ 0 then DEFAULT_COMPARE_WEIGHTS
  else
    let normalized : CompareWeights :=
      { performance := clamp (raw.performance / total) 0 1
        display := clamp (raw.display / total) 0 1
        camera := clamp (raw.camera / total) 0 1
        battery := clamp (raw.battery / total) 0 1
        priceValue := clamp (raw.priceValue / total) 0 1 }
    let s := compareWeightsSum normalized
    if 0 < s ∧ s ≠ 1 then
      { normalized with performance := clamp (normalized.performance + (1 - s)) 0 1 }
    else normalized

/-- `normalizeWeights(input)` from `src/utils/compareScoring.js`: sanitize per
key against the defaults, rescale percent-style input, then normalize the
shares (the three stages above, in source order). -/
def compareNormalizeWeights (input : CompareWeightsIn) : CompareWeights :=
  compareWeightsShares (compareWeightsRescaled (compareWeightsRaw input))

example : compareNormalizeWeights {} = DEFAULT_COMPARE_WEIGHTS := by decide
example :
    compareNormalizeWeights { performance := some 36, display := some 20,
                              camera := some 20, battery := some 14,
                              priceValue := some 10 } =
      DEFAULT_COMPARE_WEIGHTS := by decide

/-- Display spec block (the result of `toObject(device?.display)`): numeric
candidate fields post-`toFiniteNumber`, panel text fields as strings. An empty
or unparseable display block is the all-default structure. -/
structure DisplaySpec where
  refresh_rate : Option ℚ := none
  refreshRate : Option ℚ := none
  max_refresh_rate : Option ℚ := none
  screen_refresh_rate : Option ℚ := none
  frame_rate : Option ℚ := none
  refresh : Option ℚ := none
  panel_type : String := ""
  panel : String := ""
  type : String := ""
  technology : String := ""
deriving DecidableEq

/-- `extractRefreshRate(display)` from `src/utils/compareScoring.js`: first
parseable candidate in the alias chain. -/
def extractRefreshRate (display : DisplaySpec) : Option ℚ :=
  firstSome [display.refresh_rate, display.refreshRate, display.max_refresh_rate,
    display.screen_refresh_rate, display.frame_rate, display.refresh]

/-- `scoreRefreshRate(refreshRate)` from `src/utils/compareScoring.js`:
missing → 28; otherwise clamp to [60,165] and map linearly onto 20–60,
rounded. -/
def scoreRefreshRate (refreshRate : Option ℚ) : ℚ :=
  match refreshRate with
  | none => 28
  | some r =>
    ((round (20 + (clamp r 60 165 - 60) / (165 - 60) * 40) : ℤ) : ℚ)

/-- `detectPanelScore(display)` from `src/utils/compareScoring.js`. -/
def detectPanelScore (display : DisplaySpec) : ℚ :=
  let text := normalizeText
    (jsOrString display.panel_type
      (jsOrString display.panel (jsOrString display.type display.technology)))
  if text = "" then 20
  else if strIncludes text ("ltpo") then 40
  else if strIncludes text ("amoled") then 34
  else if strIncludes text ("oled") then 32
  else if strIncludes text ("mini led") || strIncludes text ("mini-led") then 33
  else if strIncludes text ("ips") || strIncludes text ("lcd") then 24
  else if strIncludes text ("tft") then 16
  else 22

/-- The shape of the `rear_camera` field as `countCameraSensors` sees it: a
plain object (one flag per entry, true iff the entry value is neither null nor
the empty string), an array (one flag per element, its truthiness), or
absent/non-object. -/
inductive RearCameraSpec where
  | obj (entries : List Bool)
  | arr (entries : List Bool)
  | absent
deriving DecidableEq

/-- Camera spec block (the result of `toObject(device?.camera)`):
`megapixels` models the numeric values `collectMegapixelValues` gathers from
`main_camera_megapixels`, `main`, `rear_camera` and `primary` (in collection
order); `rear` models the `rear_camera` field's shape; `fallbackPresent`
models the presence flags of `main/ultra_wide/telephoto/periscope/macro/depth`
used by the sensor-count fallback. -/
structure CameraSpec where
  megapixels : List ℚ := []
  rear : RearCameraSpec := .absent
  fallbackPresent : List Bool := []
deriving DecidableEq

/-- Number of `true` flags in a list. -/
def countTrue (l : List Bool) : ℕ := (l.filter id).length

/-- `extractMainMegapixel(camera)`: `Math.max` over the collected megapixel
values, `null` when none were collected. -/
def extractMainMegapixel (camera : CameraSpec) : Option ℚ :=
  match camera.megapixels with
  | [] => none
  | v :: rest => some (rest.foldl jsMax v)

/-- `countCameraSensors(camera)` from `src/utils/compareScoring.js`: count the
non-empty entries of a `rear_camera` object, or the truthy elements of a
`rear_camera` array; otherwise count the present fallback fields, with a
minimum of 1. -/
def countCameraSensors (camera : CameraSpec) : ℕ :=
  match camera.rear with
  | .obj entries => countTrue entries
  | .arr entries => countTrue entries
  | .absent =>
    let fallback := countTrue camera.fallbackPresent
    if 0 < fallback then fallback else 1

/-- Battery spec block (the result of `toObject(device?.battery)`): numeric
candidates post-`toFiniteNumber`. -/
structure BatterySpec where
  battery_capacity_mah : Option ℚ := none
  capacity_mah : Option ℚ := none
  capacity : Option ℚ := none
  mAh : Option ℚ := none
  value : Option ℚ := none
deriving DecidableEq

/-- `extractBatteryCapacity(battery)` from `src/utils/compareScoring.js`. -/
def extractBatteryCapacity (battery : BatterySpec) : Option ℚ :=
  firstSome [battery.battery_capacity_mah, battery.capacity_mah, battery.capacity,
    battery.mAh, battery.value]

/-- `scoreBatteryCapacity(capacity)` from `src/utils/compareScoring.js`: a
fixed-breakpoint step function; unknown capacity defaults to 35. -/
def scoreBatteryCapacity (capacity : Option ℚ) : ℚ :=
  match capacity with
  | none => 35
  | some c =>
    if c ≤ 3000 then 25
    else if c ≤ 4000 then 45
    else if c ≤ 4500 then 60
    else if c ≤ 5000 then 75
    else if c ≤ 5500 then 86
    else if c ≤ 6000 then 94
    else 100

/-- Performance spec block (the result of `toObject(device?.performance)`). -/
structure PerformanceSpec where
  processor : String := ""
  chipset : String := ""
  soc : String := ""
  cpu : String := ""
deriving DecidableEq

/-- CPU spec block (the result of `toObject(device?.cpu)`). -/
structure CpuSpec where
  processor : String := ""
  chipset : String := ""
  model : String := ""
  name : String := ""
deriving DecidableEq

/-- One variant row: `id` models `Number(variant?.id)` when integral,
`priceVal` models `toFiniteNumber(variant?.base_price ?? variant?.price)`. -/
structure Variant where
  id : Option ℤ := none
  priceVal : Option ℚ := none
deriving DecidableEq

/-- A compare-request device record, at the granularity the ranking engine
reads it: ids and names as strings, spec blocks as the structures above,
`devicePriceVal` models `toFiniteNumber(device?.min_price ?? device?.price)`. -/
structure Device where
  product_id : Option String := none
  id : Option String := none
  name : String := ""
  model : String := ""
  performance : PerformanceSpec := {}
  cpu : CpuSpec := {}
  processor : String := ""
  display : DisplaySpec := {}
  camera : CameraSpec := {}
  battery : BatterySpec := {}
  variants : List Variant := []
  devicePriceVal : Option ℚ := none
deriving DecidableEq

/-- A per-device variant selection entry: `variant_id` / `variant_index` model
`Number(selection?.variant_id ?? selection?.variantId)` (resp. `_index`) when
integral, `none` otherwise. -/
structure VariantSelection where
  variant_id : Option ℤ := none
  variant_index : Option ℤ := none
deriving DecidableEq

/-- `String(device?.product_id ?? device?.id ?? "")`. -/
def deviceProductId (device : Device) : String :=
  (device.product_id <|> device.id).getD ("")

/-- First candidate with a non-empty `String(candidate || "").trim()`. -/
def firstNonemptyTrimmed : List String → String
  | [] => ""
  | s :: rest =>
    let t := jsTrim s
    if t = "" then firstNonemptyTrimmed rest else t

/-- `extractProcessorText(device)` from `src/utils/compareScoring.js`: the
first non-empty candidate among the performance/cpu alias chain. -/
def extractProcessorText (device : Device) : String :=
  firstNonemptyTrimmed [device.performance.processor, device.performance.chipset,
    device.performance.soc, device.performance.cpu, device.cpu.processor,
    device.cpu.chipset, device.cpu.model, device.cpu.name, device.processor]

/-- `pickVariant(variants, selection)` from `src/utils/compareScoring.js`:
empty list → null; a positive integral `variant_id` selects the variant with
that id when present; else a non-negative integral `variant_index` selects by
index (out of range falls back to the first variant); else the first
variant. -/
def pickVariant (variants : List Variant) (selection : Option VariantSelection) :
    Option Variant :=
  match variants with
  | [] => none
  | v0 :: _ =>
    let byId : Option Variant :=
      match selection.bind (fun s => s.variant_id) with
      | some n =>
        if 0 < n then variants.find? (fun v => v.id == some n) else none
      | none => none
    match byId with
    | some v => some v
    | none =>
      match selection.bind (fun s => s.variant_index) with
      | some i => if 0 ≤ i then some ((variants.get? i.toNat).getD v0) else some v0
      | none => some v0

/-- One step of the `variants.reduce(...)` of `extractPrice`: skip null and
non-positive candidates, otherwise take the minimum with the accumulator. -/
def minPriceStep (acc : Option ℚ) (variant : Variant) : Option ℚ :=
  match variant.priceVal with
  | none => acc
  | some candidate =>
    if candidate ≤ 0 then acc
    else
      match acc with
      | none => some candidate
      | some a => some (jsMin a candidate)

/-- The `variants.reduce(...)` of `extractPrice`: minimum of the positive
parseable variant prices, `null` when there is none. -/
def minPositiveVariantPrice (variants : List Variant) : Option ℚ :=
  variants.foldl minPriceStep none

/-- The positive parseable variant prices, in variant order (the candidates
the `reduce` of `extractPrice` keeps). -/
def positiveVariantPrices (variants : List Variant) : List ℚ :=
  (variants.filterMap (fun v => v.priceVal)).filter (fun c => decide (0 < c))

/-- `toFiniteNumber(selectedVariant?.base_price ?? selectedVariant?.price)` of
`extractPrice`: the price of the variant `pickVariant` selects. -/
def selectedVariantPriceOf (device : Device)
    (variantSelection : String → Option VariantSelection) : Option ℚ :=
  (pickVariant device.variants (variantSelection (deviceProductId device))).bind
    (fun v => v.priceVal)

/-- The fallback chain of `extractPrice` past the selected variant: minimum
positive variant price, else a positive device-level price, else null. -/
def extractPriceFallback (device : Device) : Option ℚ :=
  match minPositiveVariantPrice device.variants with
  | some m => some m
  | none =>
    match device.devicePriceVal with
    | some p => if 0 < p then some p else none
    | none => none

/-- `extractPrice(device, variantSelection)` from
`src/utils/compareScoring.js`: the selected variant's positive price, else the
minimum positive variant price, else a positive device-level price, else
null. -/
def extractPrice (device : Device)
    (variantSelection : String → Option VariantSelection) : Option ℚ :=
  match selectedVariantPriceOf device variantSelection with
  | some p => if 0 < p then some p else extractPriceFallback device
  | none => extractPriceFallback device

/-- The per-device sub-score breakdown carried in the ranking output. -/
structure ScoreBreakdown where
  performance : ℚ
  display : ℚ
  camera : ℚ
  battery : ℚ
deriving DecidableEq

/-- One element of the `scored` intermediate list of `buildCompareRanking`. -/
structure ScoredRow where
  productId : String
  deviceName : String
  price : Option ℚ
  valueRaw : Option ℚ
  breakdown : ScoreBreakdown
deriving DecidableEq

/-- The chipset sub-score of a device (`scoreChipset` over
`extractProcessorText`). -/
def chipsetScoreOf (chipsetRules : List ChipsetRule) (device : Device) : ℚ :=
  scoreChipset (extractProcessorText device) chipsetRules

/-- The display sub-score of a device:
`clamp(refreshRateScore + panelScore, 0, 100)`. -/
def displayScoreOf (device : Device) : ℚ :=
  clamp (scoreRefreshRate (extractRefreshRate device.display) +
    detectPanelScore device.display) 0 100

/-- The camera sub-score of a device:
`clamp(megapixelScore + sensorScore, 0, 100)` with
`megapixelScore = mainMegapixel == null ? 24 : clamp(mp/108*65, 18, 65)` and
`sensorScore = clamp(sensors * 8.75, 10, 35)`. -/
def cameraScoreOf (device : Device) : ℚ :=
  let megapixelScore :=
    match extractMainMegapixel device.camera with
    | none => 24
    | some mp => clamp (mp / 108 * 65) 18 65
  let sensorScore := clamp ((countCameraSensors device.camera : ℚ) * 8.75) 10 35
  clamp (megapixelScore + sensorScore) 0 100

/-- The battery sub-score of a device. -/
def batteryScoreOf (device : Device) : ℚ :=
  scoreBatteryCapacity (extractBatteryCapacity device.battery)

/-- `baseSpecScore` of `buildCompareRanking`:
`chipset*0.4 + display*0.2 + camera*0.25 + battery*0.15`. -/
def baseSpecScore (chipsetRules : List ChipsetRule) (device : Device) : ℚ :=
  chipsetScoreOf chipsetRules device * 0.4 + displayScoreOf device * 0.2 +
    cameraScoreOf device * 0.25 + batteryScoreOf device * 0.15

/-- The body of the `scored = devices.map(...)` stage of
`buildCompareRanking`: sub-scores, price, raw value ratio and the rounded
breakdown for one device. -/
def compareScoreRow (chipsetRules : List ChipsetRule)
    (variantSelection : String → Option VariantSelection) (device : Device) :
    ScoredRow :=
  let price := extractPrice device variantSelection
  { productId := deviceProductId device
    deviceName := jsOrString device.name (jsOrString device.model ("Device"))
    price := price
    valueRaw :=
      match price with
      | some p => if 0 < p then some (baseSpecScore chipsetRules device / p) else none
      | none => none
    breakdown :=
      { performance := roundOne (chipsetScoreOf chipsetRules device)
        display := roundOne (displayScoreOf device)
        camera := roundOne (cameraScoreOf device)
        battery := roundOne (batteryScoreOf device) } }

/-- `minValue` of `buildCompareRanking`: `Math.min` over the non-null raw
value ratios, `null` when there are none. -/
def compareMinValue (scored : List ScoredRow) : Option ℚ :=
  match scored.filterMap (fun r => r.valueRaw) with
  | [] => none
  | v :: rest => some (rest.foldl jsMin v)

/-- `maxValue` of `buildCompareRanking`: `Math.max` over the non-null raw
value ratios, `null` when there are none. -/
def compareMaxValue (scored : List ScoredRow) : Option ℚ :=
  match scored.filterMap (fun r => r.valueRaw) with
  | [] => none
  | v :: rest => some (rest.foldl jsMax v)

/-- The `valueScore` branch of the `scoredWithValue` stage: no resolvable
price → 45; all raw ratios equal (max = min) → 70; otherwise rescale the raw
ratio within [min,max] onto [35,100]. (The initial `let valueScore = 50`
of the source survives only in the unreachable null-min/max branch.) -/
def compareValueScore (valueRaw minValue maxValue : Option ℚ) : ℚ :=
  match valueRaw with
  | none => 45
  | some vr =>
    match minValue, maxValue with
    | some mn, some mx =>
      if mx = mn then 70 else 35 + (vr - mn) / (mx - mn) * 65
    | _, _ => 50

/-- The `totalScore` expression of the `scoredWithValue` stage of
`buildCompareRanking`. -/
def compareTotalScore (weights : CompareWeights) (row : ScoredRow)
    (minValue maxValue : Option ℚ) : ℚ :=
  row.breakdown.performance * weights.performance +
    row.breakdown.display * weights.display +
    row.breakdown.camera * weights.camera +
    row.breakdown.battery * weights.battery +
    roundOne (clamp (compareValueScore row.valueRaw minValue maxValue) 0 100) *
      weights.priceValue

/-- One element of the final ranked output of `buildCompareRanking`. -/
structure RankedDevice where
  productId : String
  deviceName : String
  price : Option ℚ
  valueRaw : Option ℚ
  breakdown : ScoreBreakdown
  overallScore : ℚ
  rank : ℕ
deriving DecidableEq

/-- Sort key for the null price: `a.price ?? Number.POSITIVE_INFINITY`. -/
def priceSortKey (price : Option ℚ) : WithTop ℚ :=
  match price with
  | some p => (p : WithTop ℚ)
  | none => ⊤

/-- The total preorder realized by the ranking comparator of
`buildCompareRanking`: overall score descending, then price ascending with
null treated as +∞, then device name (`localeCompare` modeled as the
code-point lexicographic order on the name's character list). -/
def compareRankRel (a b : RankedDevice) : Prop :=
  b.overallScore < a.overallScore ∨
    (a.overallScore = b.overallScore ∧
      (priceSortKey a.price < priceSortKey b.price ∨
        (priceSortKey a.price = priceSortKey b.price ∧
          a.deviceName.data ≤ b.deviceName.data)))

instance (a b : RankedDevice) : Decidable (compareRankRel a b) := by
  unfold compareRankRel
  infer_instance

instance : IsTotal RankedDevice compareRankRel := by
  constructor
  intro a b
  unfold compareRankRel
  rcases lt_trichotomy a.overallScore b.overallScore with h | h | h
  · exact Or.inr (Or.inl h)
  · rcases lt_trichotomy (priceSortKey a.price) (priceSortKey b.price) with hp | hp | hp
    · exact Or.inl (Or.inr ⟨h, Or.inl hp⟩)
    · rcases le_total a.deviceName.data b.deviceName.data with hn | hn
      · exact Or.inl (Or.inr ⟨h, Or.inr ⟨hp, hn⟩⟩)
      · exact Or.inr (Or.inr ⟨h.symm, Or.inr ⟨hp.symm, hn⟩⟩)
    · exact Or.inr (Or.inr ⟨h.symm, Or.inl hp⟩)
  · exact Or.inl (Or.inl h)

instance : IsTrans RankedDevice compareRankRel := by
  constructor
  intro a b c hab hbc
  unfold compareRankRel at *
  rcases hab with hab | ⟨hab, hab2⟩
  · rcases hbc with hbc | ⟨hbc, _⟩
    · exact Or.inl (hbc.trans hab)
    · exact Or.inl (hbc ▸ hab)
  · rcases hbc with hbc | ⟨hbc, hbc2⟩
    · exact Or.inl (hab.symm ▸ hbc)
    · refine Or.inr ⟨hab.trans hbc, ?_⟩
      rcases hab2 with hp | ⟨hp, hn⟩
      · rcases hbc2 with hq | ⟨hq, _⟩
        · exact Or.inl (hp.trans hq)
        · exact Or.inl (hq ▸ hp)
      · rcases hbc2 with hq | ⟨hq, hm⟩
        · exact Or.inl (hp.symm ▸ hq)
        · exact Or.inr ⟨hp.trans hq, hn.trans hm⟩

/-- The compare configuration object: `weights` models
`source.weights || source` (post-extraction), `chipset_rules` the coalesced
`chipset_rules ?? chipsetRules ?? chipsets ?? []` alias chain. -/
structure CompareConfig where
  weights : CompareWeightsIn := {}
  chipset_rules : List RawChipsetRule := []

/-- The body of the `scoredWithValue = scored.map(...)` stage of
`buildCompareRanking`: attach the set-relative value score and the composed
weighted total to one scored row (rank is attached after sorting). -/
def compareAttachValue (weights : CompareWeights) (minValue maxValue : Option ℚ)
    (row : ScoredRow) : RankedDevice :=
  { productId := row.productId, deviceName := row.deviceName, price := row.price,
    valueRaw := row.valueRaw, breakdown := row.breakdown,
    overallScore := roundOne (compareTotalScore weights row minValue maxValue),
    rank := 0 }

/-- The `scored` stage of `buildCompareRanking`: one `ScoredRow` per input
device, in input order. -/
def compareScoredRows (devices : List Device)
    (variantSelection : String → Option VariantSelection)
    (config : CompareConfig) : List ScoredRow :=
  devices.map (compareScoreRow (normalizeChipsetRules config.chipset_rules) variantSelection)

/-- The `scoredWithValue` stage of `buildCompareRanking` (rank still 0). -/
def compareScoredWithValue (devices : List Device)
    (variantSelection : String → Option VariantSelection)
    (config : CompareConfig) : List RankedDevice :=
  let scored := compareScoredRows devices variantSelection config
  scored.map
    (compareAttachValue (compareNormalizeWeights config.weights)
      (compareMinValue scored) (compareMaxValue scored))

/-- `buildCompareRanking(devices, variantSelection, config)` from
`src/utils/compareScoring.js`: score every device, derive the set-relative
value score, compose the weighted total, sort by the ranking comparator
(JS engines implement `Array.prototype.sort` as a stable sort; with a
consistent comparator every stable sort produces the same list, here realized
by a stable insertion sort over `compareRankRel`) and attach 1-based ranks. -/
def buildCompareRanking (devices : List Device)
    (variantSelection : String → Option VariantSelection)
    (config : CompareConfig) : List RankedDevice :=
  let ranked := (compareScoredWithValue devices variantSelection config).insertionSort compareRankRel
  ranked.enum.map (fun p => { p.2 with rank := p.1 + 1 })

/-- One candidate row of the trending-score SQL pipeline
(`src/utils/trendingScore.js`), after the `base` CTE's `COALESCE`s: windowed
view/compare counts (Postgres `int`, embedded as ℚ like the rest of the
`numeric` arithmetic). -/
structure TrendingRow where
  product_id : String := ""
  product_type : String := ""
  views_7d : ℚ := 0
  views_prev_7d : ℚ := 0
  compares_7d : ℚ := 0
deriving DecidableEq

/-- `velocity_raw` of the `base` CTE:
`GREATEST(0, (views_7d + s)/(views_prev_7d + s) - 1)` with smoothing `s`. -/
def velocityRaw (smoothing : ℚ) (row : TrendingRow) : ℚ :=
  jsMax 0 ((row.views_7d + smoothing) / (row.views_prev_7d + smoothing) - 1)

/-- `MAX(f) OVER (PARTITION BY product_type)` of the `maxed` CTE, for the
cohort of `ptype` (0 when the cohort is empty — all metrics here are
non-negative, so the seed never exceeds a Postgres cohort maximum). -/
def cohortMax (rows : List TrendingRow) (ptype : String) (f : TrendingRow → ℚ) : ℚ :=
  ((rows.filter (fun r => r.product_type == ptype)).map f).foldr jsMax 0

/-- The `CASE WHEN max > 0 THEN raw / max * 100 ELSE 0 END` normalization of
the `normalized` CTE (shared shape across views/compares/velocity, and with
the hook-score pipeline's `normalized` CTE). -/
def cohortNormalize (raw maxRaw : ℚ) : ℚ :=
  if 0 < maxRaw then raw / maxRaw * 100 else 0

/-- `trending_score` of the `scored` CTE of `src/utils/trendingScore.js` for
one row: the weighted sum of the three cohort-normalized signals divided by
`weightTotal = weights.total || 1`. No clamp is applied by the source. -/
def trendingScoreRow (weights : TrendingWeights) (rows : List TrendingRow)
    (smoothing : ℚ) (row : TrendingRow) : ℚ :=
  let normViews :=
    cohortNormalize row.views_7d (cohortMax rows row.product_type (fun r => r.views_7d))
  let normCompares :=
    cohortNormalize row.compares_7d (cohortMax rows row.product_type (fun r => r.compares_7d))
  let normVelocity :=
    cohortNormalize (velocityRaw smoothing row) (cohortMax rows row.product_type (velocityRaw smoothing))
  let weightTotal := if weights.total = 0 then 1 else weights.total
  (normViews * weights.views + normCompares * weights.compares +
    normVelocity * weights.velocity) / weightTotal

/-- `GREATEST(0, LEAST(100, x))` over the reals, as used by the hook-score SQL
(`src/utils/hookScore.js`). -/
noncomputable def sqlClampScore (x : ℝ) : ℝ := max 0 (min 100 x)

/-- `hook_score` of the `final_score` CTE of `src/utils/hookScore.js`: the
weighted composite of the buyer-intent, trend-velocity and freshness
sub-scores (the interpolated normalized weights and their total), clamped to
[0,100] by `GREATEST(0, LEAST(100, ...))`. -/
noncomputable def hookFinalScore (buyerIntent trendVelocity fresh wBuyer wTrend wFresh wTotal : ℝ) : ℝ :=
  sqlClampScore ((buyerIntent * wBuyer + trendVelocity * wTrend + fresh * wFresh) / wTotal)

/-- The `freshness` column of the `normalized` CTE of `src/utils/hookScore.js`:
`GREATEST(0, LEAST(100, 100 * EXP((-1 * age_days) / half_life_days)))`. -/
noncomputable def freshness (ageDays halfLifeDays : ℝ) : ℝ :=
  max 0 (min 100 (100 * Real.exp ((-1 * ageDays) / halfLifeDays)))

/-- The result object an orchestrator invocation returns
(`recomputeProductDynamicScoreByType` / `recomputeProductTrendingScores`);
`reason` is `"lock_unavailable"` on the skip path and empty on success (the
source success object simply lacks the key). -/
structure OrchestratorResult where
  ok : Bool
  skipped : Bool
  reason : String
  updated : ℕ
deriving DecidableEq

/-- Postgres `pg_try_advisory_lock` on a single key, modeled on the lock
state for that key: returns (acquired?, new lock state). Acquisition succeeds
exactly when the lock is currently free, atomically taking it. -/
def pgTryAdvisoryLock (held : Bool) : Bool × Bool :=
  if held then (false, true) else (true, true)

/-- The lock-guarded body shared by `recomputeProductDynamicScoreByType`
(`src/utils/hookScore.js` lines 171–186) and
`recomputeProductTrendingScores` (`src/utils/trendingScore.js` lines 60–68):
if the try-lock failed, return `{ ok: true, skipped: true, updated: 0 }`
without running the scoring statement (second component: the list of rows the
invocation upserts); otherwise run the upsert and report its row count. -/
def orchestratorRun (lockAcquired : Bool) (upsertRows : List String) :
    OrchestratorResult × List String :=
  if lockAcquired then
    ({ ok := true, skipped := false, reason := "", updated := upsertRows.length },
      upsertRows)
  else
    ({ ok := true, skipped := true, reason := "lock_unavailable", updated := 0 }, [])

/-- Two orchestrator invocations for the same family+type whose try-locks
overlap (both issued before either releases): the second try-lock observes the
lock taken by the first. -/
def overlappingOrchestratorRuns (rows1 rows2 : List String) :
    (OrchestratorResult × List String) × (OrchestratorResult × List String) :=
  let l1 := pgTryAdvisoryLock false
  let l2 := pgTryAdvisoryLock l1.2
  (orchestratorRun l1.1 rows1, orchestratorRun l2.1 rows2)

/-- A concrete trending row used by witnesses. -/
def exampleTrendingRow : TrendingRow :=
  { product_id := "p1", product_type := "smartphone", views_7d := 100,
    views_prev_7d := 50, compares_7d := 3 }

/-- The ranked entry `buildCompareRanking` produces for a single device with
entirely empty spec blocks: all neutral-default sub-scores. -/
def emptySpecsRankedDevice : RankedDevice :=
  { productId := "", deviceName := "Device", price := none, valueRaw := none,
    breakdown := { performance := 45, display := 48, camera := 34, battery := 35 },
    overallScore := 42, rank := 1 }

/-- A two-variant device used by witnesses: the first (default-picked) variant
has a positive price. -/
def exampleDeviceA : Device :=
  { variants := [{ id := some 1, priceVal := some 500 }, { id := some 2, priceVal := some 300 }],
    devicePriceVal := some 999 }

/-- A device whose default-picked variant price is 0, forcing the
minimum-positive-variant-price fallback. -/
def exampleDeviceB : Device :=
  { variants := [{ id := some 1, priceVal := some 0 }, { id := some 2, priceVal := some 300 }] }

theorem jsMin_eq_min (a b : ℚ) : jsMin a b = min a b := by
  rw [jsMin, min_def]

theorem jsMax_eq_max (a b : ℚ) : jsMax a b = max a b := by
  rw [jsMax, max_def]

theorem clamp_mem (v lo hi : ℚ) (h : lo ≤ hi) :
    lo ≤ clamp v lo hi ∧ clamp v lo hi ≤ hi := by
  unfold clamp jsMin jsMax
  split_ifs <;> constructor <;> linarith

theorem clamp_eq_self (v lo hi : ℚ) (h1 : lo ≤ v) (h2 : v ≤ hi) :
    clamp v lo hi = v := by
  unfold clamp jsMin jsMax
  split_ifs <;> linarith

theorem roundOne_bounds (x : ℚ) (h0 : 0 ≤ x) (h1 : x ≤ 100) :
    0 ≤ roundOne x ∧ roundOne x ≤ 100 := by
  have hlow : (0 : ℤ) ≤ round ((x + numberEpsilon) * 10) := by
    rw [round_eq, Int.le_floor]
    unfold numberEpsilon
    push_cast
    nlinarith
  have hhigh : round ((x + numberEpsilon) * 10) ≤ 1000 := by
    rw [round_eq]
    have h2 : ⌊(x + numberEpsilon) * 10 + 1 / 2⌋ < 1001 := by
      rw [Int.floor_lt]
      unfold numberEpsilon
      push_cast
      nlinarith
    omega
  unfold roundOne
  constructor
  · exact div_nonneg (by exact_mod_cast hlow) (by norm_num)
  · rw [div_le_iff₀ (by norm_num : (0:ℚ) < 10)]
    have : ((round ((x + numberEpsilon) * 10) : ℤ) : ℚ) ≤ 1000 := by exact_mod_cast hhigh
    linarith

theorem le_jsMax_left (a b : ℚ) : a ≤ jsMax a b := by
  unfold jsMax
  split_ifs <;> linarith

theorem le_jsMax_right (a b : ℚ) : b ≤ jsMax a b := by
  unfold jsMax
  split_ifs <;> linarith

theorem jsMin_le_left (a b : ℚ) : jsMin a b ≤ a := by
  unfold jsMin
  split_ifs <;> linarith

theorem jsMin_le_right (a b : ℚ) : jsMin a b ≤ b := by
  unfold jsMin
  split_ifs <;> linarith

theorem mem_le_foldr_jsMax (l : List ℚ) (b a : ℚ) (ha : a ∈ l) :
    a ≤ l.foldr jsMax b := by
  induction l with
  | nil => cases ha
  | cons x xs ih =>
    rcases List.mem_cons.mp ha with rfl | hmem
    · exact le_jsMax_left _ _
    · exact le_trans (ih hmem) (le_jsMax_right _ _)

theorem foldl_jsMin_le_init (l : List ℚ) (a : ℚ) : l.foldl jsMin a ≤ a := by
  induction l generalizing a with
  | nil => exact le_refl a
  | cons x xs ih => exact le_trans (ih (jsMin a x)) (jsMin_le_left a x)

theorem foldl_jsMin_le_mem (l : List ℚ) (a b : ℚ) (hb : b ∈ l) :
    l.foldl jsMin a ≤ b := by
  induction l generalizing a with
  | nil => cases hb
  | cons x xs ih =>
    rcases List.mem_cons.mp hb with rfl | hmem
    · exact le_trans (foldl_jsMin_le_init xs (jsMin a b)) (jsMin_le_right a b)
    · exact ih (jsMin a x) hmem

theorem foldl_jsMin_mem_or_init (l : List ℚ) (a : ℚ) :
    l.foldl jsMin a = a ∨ l.foldl jsMin a ∈ l := by
  induction l generalizing a with
  | nil => exact Or.inl rfl
  | cons x xs ih =>
    rcases ih (jsMin a x) with h | h
    · by_cases hax : a ≤ x
      · left
        rw [List.foldl_cons, h, jsMin, if_pos hax]
      · right
        rw [List.foldl_cons, h, jsMin, if_neg hax]
        exact List.mem_cons_self x xs
    · right
      rw [List.foldl_cons]
      exact List.mem_cons_of_mem x h

theorem init_le_foldl_jsMax (l : List ℚ) (a : ℚ) : a ≤ l.foldl jsMax a := by
  induction l generalizing a with
  | nil => exact le_refl a
  | cons x xs ih => exact le_trans (le_jsMax_left a x) (ih (jsMax a x))

theorem mem_le_foldl_jsMax (l : List ℚ) (a b : ℚ) (hb : b ∈ l) :
    b ≤ l.foldl jsMax a := by
  induction l generalizing a with
  | nil => cases hb
  | cons x xs ih =>
    rcases List.mem_cons.mp hb with rfl | hmem
    · exact le_trans (le_jsMax_right a b) (init_le_foldl_jsMax xs (jsMax a b))
    · exact ih (jsMax a x) hmem

theorem foldl_jsMax_mem_or_init (l : List ℚ) (a : ℚ) :
    l.foldl jsMax a = a ∨ l.foldl jsMax a ∈ l := by
  induction l generalizing a with
  | nil => exact Or.inl rfl
  | cons x xs ih =>
    rcases ih (jsMax a x) with h | h
    · by_cases hax : a ≤ x
      · right
        rw [List.foldl_cons, h, jsMax, if_pos hax]
        exact List.mem_cons_self x xs
      · left
        rw [List.foldl_cons, h, jsMax, if_neg hax]
    · right
      rw [List.foldl_cons]
      exact List.mem_cons_of_mem x h

theorem scoreChipset_bounds (t : String) (rules : List ChipsetRule) :
    0 ≤ scoreChipset t rules ∧ scoreChipset t rules ≤ 100 := by
  unfold scoreChipset
  dsimp only
  split
  · exact ⟨by norm_num, by norm_num⟩
  · split
    · exact clamp_mem _ 0 100 (by norm_num)
    · split
      · rename_i sg _
        have h := clamp_mem (50 + (sg.1 : ℚ) * 8 + (sg.2 : ℚ) * 2) 52 96 (by norm_num)
        exact ⟨by linarith [h.1], by linarith [h.2]⟩
      · split
        · split_ifs <;> exact ⟨by norm_num, by norm_num⟩
        · split
          · rename_i chipNum _
            have h := clamp_mem (74 + ((chipNum : ℚ) - 14) * 4) 70 99 (by norm_num)
            exact ⟨by linarith [h.1], by linarith [h.2]⟩
          · split_ifs <;> exact ⟨by norm_num, by norm_num⟩

theorem displayScoreOf_bounds (d : Device) :
    0 ≤ displayScoreOf d ∧ displayScoreOf d ≤ 100 :=
  clamp_mem _ 0 100 (by norm_num)

theorem cameraScoreOf_bounds (d : Device) :
    0 ≤ cameraScoreOf d ∧ cameraScoreOf d ≤ 100 :=
  clamp_mem _ 0 100 (by norm_num)

theorem batteryScoreOf_bounds (d : Device) :
    0 ≤ batteryScoreOf d ∧ batteryScoreOf d ≤ 100 := by
  unfold batteryScoreOf scoreBatteryCapacity
  split
  · exact ⟨by norm_num, by norm_num⟩
  · split_ifs <;> exact ⟨by norm_num, by norm_num⟩

theorem compareSanitizeWeight_nonneg (v : Option ℚ) (d : ℚ) (hd : 0 ≤ d) :
    0 ≤ compareSanitizeWeight v d := by
  unfold compareSanitizeWeight
  split
  · split_ifs with h
    · exact h
    · exact hd
  · exact hd


theorem compareWeightsRaw_nonneg (input : CompareWeightsIn) :
    0 ≤ (compareWeightsRaw input).performance ∧ 0 ≤ (compareWeightsRaw input).display ∧
      0 ≤ (compareWeightsRaw input).camera ∧ 0 ≤ (compareWeightsRaw input).battery ∧
      0 ≤ (compareWeightsRaw input).priceValue := by
  unfold compareWeightsRaw
  refine ⟨?_, ?_, ?_, ?_, ?_⟩ <;> exact compareSanitizeWeight_nonneg _ _ (by norm_num)

theorem compareWeightsRescaled_nonneg (raw : CompareWeights)
    (h : 0 ≤ raw.performance ∧ 0 ≤ raw.display ∧ 0 ≤ raw.camera ∧ 0 ≤ raw.battery ∧
      0 ≤ raw.priceValue) :
    0 ≤ (compareWeightsRescaled raw).performance ∧
      0 ≤ (compareWeightsRescaled raw).display ∧
      0 ≤ (compareWeightsRescaled raw).camera ∧
      0 ≤ (compareWeightsRescaled raw).battery ∧
      0 ≤ (compareWeightsRescaled raw).priceValue := by
  obtain ⟨h1, h2, h3, h4, h5⟩ := h
  unfold compareWeightsRescaled
  split
  · exact ⟨by positivity, by positivity, by positivity, by positivity, by positivity⟩
  · exact ⟨h1, h2, h3, h4, h5⟩

theorem compareWeightsShares_spec (raw : CompareWeights)
    (h : 0 ≤ raw.performance ∧ 0 ≤ raw.display ∧ 0 ≤ raw.camera ∧ 0 ≤ raw.battery ∧
      0 ≤ raw.priceValue) :
    (0 ≤ (compareWeightsShares raw).performance ∧ (compareWeightsShares raw).performance ≤ 1) ∧
      (0 ≤ (compareWeightsShares raw).display ∧ (compareWeightsShares raw).display ≤ 1) ∧
      (0 ≤ (compareWeightsShares raw).camera ∧ (compareWeightsShares raw).camera ≤ 1) ∧
      (0 ≤ (compareWeightsShares raw).battery ∧ (compareWeightsShares raw).battery ≤ 1) ∧
      (0 ≤ (compareWeightsShares raw).priceValue ∧ (compareWeightsShares raw).priceValue ≤ 1) ∧
      compareWeightsSum (compareWeightsShares raw) = 1 := by
  obtain ⟨h1, h2, h3, h4, h5⟩ := h
  unfold compareWeightsShares
  dsimp only
  split
  · unfold DEFAULT_COMPARE_WEIGHTS compareWeightsSum
    norm_num
  · rename_i htot
    push_neg at htot
    have hne : compareWeightsSum raw ≠ 0 := ne_of_gt htot
    have hp_le : raw.performance ≤ compareWeightsSum raw := by
      unfold compareWeightsSum
      linarith
    have hd_le : raw.display ≤ compareWeightsSum raw := by
      unfold compareWeightsSum
      linarith
    have hc_le : raw.camera ≤ compareWeightsSum raw := by
      unfold compareWeightsSum
      linarith
    have hb_le : raw.battery ≤ compareWeightsSum raw := by
      unfold compareWeightsSum
      linarith
    have hv_le : raw.priceValue ≤ compareWeightsSum raw := by
      unfold compareWeightsSum
      linarith
    have hshare : ∀ x : ℚ, 0 ≤ x → x ≤ compareWeightsSum raw →
        clamp (x / compareWeightsSum raw) 0 1 = x / compareWeightsSum raw := by
      intro x hx hxle
      refine clamp_eq_self _ 0 1 (by positivity) ?_
      rw [div_le_one htot]
      exact hxle
    rw [hshare _ h1 hp_le, hshare _ h2 hd_le, hshare _ h3 hc_le, hshare _ h4 hb_le,
      hshare _ h5 hv_le]
    have hs1 : compareWeightsSum
        ({ performance := raw.performance / compareWeightsSum raw,
           display := raw.display / compareWeightsSum raw,
           camera := raw.camera / compareWeightsSum raw,
           battery := raw.battery / compareWeightsSum raw,
           priceValue := raw.priceValue / compareWeightsSum raw } : CompareWeights) = 1 := by
      unfold compareWeightsSum
      dsimp only
      rw [div_add_div_same, div_add_div_same, div_add_div_same, div_add_div_same]
      rw [show raw.performance + raw.display + raw.camera + raw.battery +
        raw.priceValue = compareWeightsSum raw by
          unfold compareWeightsSum
          ring]
      exact div_self hne
    rw [hs1]
    have hcond : ¬ ((0:ℚ) < 1 ∧ (1:ℚ) ≠ 1) := by
      intro hcontra
      exact hcontra.2 rfl
    rw [if_neg hcond]
    refine ⟨⟨by positivity, ?_⟩, ⟨by positivity, ?_⟩, ⟨by positivity, ?_⟩,
      ⟨by positivity, ?_⟩, ⟨by positivity, ?_⟩, hs1⟩
    · rw [div_le_one htot]
      exact hp_le
    · rw [div_le_one htot]
      exact hd_le
    · rw [div_le_one htot]
      exact hc_le
    · rw [div_le_one htot]
      exact hb_le
    · rw [div_le_one htot]
      exact hv_le

theorem compareNormalizeWeights_spec (input : CompareWeightsIn) :
    (0 ≤ (compareNormalizeWeights input).performance ∧
        (compareNormalizeWeights input).performance ≤ 1) ∧
      (0 ≤ (compareNormalizeWeights input).display ∧
        (compareNormalizeWeights input).display ≤ 1) ∧
      (0 ≤ (compareNormalizeWeights input).camera ∧
        (compareNormalizeWeights input).camera ≤ 1) ∧
      (0 ≤ (compareNormalizeWeights input).battery ∧
        (compareNormalizeWeights input).battery ≤ 1) ∧
      (0 ≤ (compareNormalizeWeights input).priceValue ∧
        (compareNormalizeWeights input).priceValue ≤ 1) ∧
      compareWeightsSum (compareNormalizeWeights input) = 1 := by
  unfold compareNormalizeWeights
  exact compareWeightsShares_spec _
    (compareWeightsRescaled_nonneg _ (compareWeightsRaw_nonneg input))

theorem compareScoreRow_breakdown (rules : List ChipsetRule)
    (vsel : String → Option VariantSelection) (d : Device) :
    (compareScoreRow rules vsel d).breakdown =
      { performance := roundOne (chipsetScoreOf rules d)
        display := roundOne (displayScoreOf d)
        camera := roundOne (cameraScoreOf d)
        battery := roundOne (batteryScoreOf d) } := rfl

theorem compareScoreRow_breakdown_bounds (rules : List ChipsetRule)
    (vsel : String → Option VariantSelection) (d : Device) :
    (0 ≤ (compareScoreRow rules vsel d).breakdown.performance ∧
        (compareScoreRow rules vsel d).breakdown.performance ≤ 100) ∧
      (0 ≤ (compareScoreRow rules vsel d).breakdown.display ∧
        (compareScoreRow rules vsel d).breakdown.display ≤ 100) ∧
      (0 ≤ (compareScoreRow rules vsel d).breakdown.camera ∧
        (compareScoreRow rules vsel d).breakdown.camera ≤ 100) ∧
      (0 ≤ (compareScoreRow rules vsel d).breakdown.battery ∧
        (compareScoreRow rules vsel d).breakdown.battery ≤ 100) := by
  rw [compareScoreRow_breakdown]
  have hc := scoreChipset_bounds (extractProcessorText d) rules
  have hd := displayScoreOf_bounds d
  have hcam := cameraScoreOf_bounds d
  have hb := batteryScoreOf_bounds d
  exact ⟨roundOne_bounds _ hc.1 hc.2, roundOne_bounds _ hd.1 hd.2,
    roundOne_bounds _ hcam.1 hcam.2, roundOne_bounds _ hb.1 hb.2⟩

theorem compareTotalScore_bounds (w : CompareWeights) (row : ScoredRow)
    (minV maxV : Option ℚ)
    (hw : (0 ≤ w.performance ∧ w.performance ≤ 1) ∧ (0 ≤ w.display ∧ w.display ≤ 1) ∧
      (0 ≤ w.camera ∧ w.camera ≤ 1) ∧ (0 ≤ w.battery ∧ w.battery ≤ 1) ∧
      (0 ≤ w.priceValue ∧ w.priceValue ≤ 1) ∧ compareWeightsSum w = 1)
    (hb : (0 ≤ row.breakdown.performance ∧ row.breakdown.performance ≤ 100) ∧
      (0 ≤ row.breakdown.display ∧ row.breakdown.display ≤ 100) ∧
      (0 ≤ row.breakdown.camera ∧ row.breakdown.camera ≤ 100) ∧
      (0 ≤ row.breakdown.battery ∧ row.breakdown.battery ≤ 100)) :
    0 ≤ compareTotalScore w row minV maxV ∧ compareTotalScore w row minV maxV ≤ 100 := by
  obtain ⟨hwp, hwd, hwc, hwb, hwv, hsum⟩ := hw
  obtain ⟨hbp, hbd, hbc, hbb⟩ := hb
  have hclamp := clamp_mem (compareValueScore row.valueRaw minV maxV) 0 100 (by norm_num)
  have hval := roundOne_bounds _ hclamp.1 hclamp.2
  unfold compareWeightsSum at hsum
  unfold compareTotalScore
  constructor
  · have t1 := mul_nonneg hbp.1 hwp.1
    have t2 := mul_nonneg hbd.1 hwd.1
    have t3 := mul_nonneg hbc.1 hwc.1
    have t4 := mul_nonneg hbb.1 hwb.1
    have t5 := mul_nonneg hval.1 hwv.1
    linarith
  · have t1 := mul_le_mul_of_nonneg_right hbp.2 hwp.1
    have t2 := mul_le_mul_of_nonneg_right hbd.2 hwd.1
    have t3 := mul_le_mul_of_nonneg_right hbc.2 hwc.1
    have t4 := mul_le_mul_of_nonneg_right hbb.2 hwb.1
    have t5 := mul_le_mul_of_nonneg_right hval.2 hwv.1
    linarith

theorem mem_enum_snd {α : Type} {p : ℕ × α} {l : List α} (hp : p ∈ l.enum) : p.2 ∈ l := by
  obtain ⟨i, x⟩ := p
  have h := List.mem_enumFrom hp
  obtain ⟨-, hlt, hx⟩ := h
  show x ∈ l
  rw [hx]
  exact List.getElem_mem _

theorem buildCompareRanking_mem_structure (devices : List Device)
    (vsel : String → Option VariantSelection) (cfg : CompareConfig) (r : RankedDevice)
    (hr : r ∈ buildCompareRanking devices vsel cfg) :
    ∃ d ∈ devices,
      r.overallScore =
        roundOne (compareTotalScore (compareNormalizeWeights cfg.weights)
          (compareScoreRow (normalizeChipsetRules cfg.chipset_rules) vsel d)
          (compareMinValue (compareScoredRows devices vsel cfg))
          (compareMaxValue (compareScoredRows devices vsel cfg))) := by
  unfold buildCompareRanking at hr
  dsimp only at hr
  obtain ⟨p, hp, hpr⟩ := List.mem_map.mp hr
  have hp2 : p.2 ∈ (compareScoredWithValue devices vsel cfg).insertionSort compareRankRel :=
    mem_enum_snd hp
  rw [List.mem_insertionSort] at hp2
  unfold compareScoredWithValue at hp2
  dsimp only at hp2
  obtain ⟨row, hrow, hrowp⟩ := List.mem_map.mp hp2
  unfold compareScoredRows at hrow
  obtain ⟨d, hd, hdr⟩ := List.mem_map.mp hrow
  refine ⟨d, hd, ?_⟩
  have hscore : r.overallScore = p.2.overallScore := by
    rw [← hpr]
  rw [hscore, ← hrowp, ← hdr]
  rfl

theorem buildCompareRanking_overallScore_bounds (devices : List Device)
    (vsel : String → Option VariantSelection) (cfg : CompareConfig) (r : RankedDevice)
    (hr : r ∈ buildCompareRanking devices vsel cfg) :
    0 ≤ r.overallScore ∧ r.overallScore ≤ 100 := by
  obtain ⟨d, hd, hs⟩ := buildCompareRanking_mem_structure devices vsel cfg r hr
  rw [hs]
  have ht := compareTotalScore_bounds (compareNormalizeWeights cfg.weights)
    (compareScoreRow (normalizeChipsetRules cfg.chipset_rules) vsel d)
    (compareMinValue (compareScoredRows devices vsel cfg))
    (compareMaxValue (compareScoredRows devices vsel cfg))
    (compareNormalizeWeights_spec cfg.weights)
    (compareScoreRow_breakdown_bounds _ _ _)
  exact roundOne_bounds _ ht.1 ht.2

theorem trendSafe_nonneg (n : Option ℚ) : 0 ≤ trendSafe n := by
  unfold trendSafe
  split
  · split_ifs with h
    · exact h
    · norm_num
  · norm_num

theorem trendingNormalizeWeights_spec (w : TrendingWeightsIn) :
    0 ≤ (trendingNormalizeWeights w).views ∧ 0 ≤ (trendingNormalizeWeights w).compares ∧
      0 ≤ (trendingNormalizeWeights w).velocity ∧
      (trendingNormalizeWeights w).total =
        (trendingNormalizeWeights w).views + (trendingNormalizeWeights w).compares +
          (trendingNormalizeWeights w).velocity ∧
      0 < (trendingNormalizeWeights w).total := by
  unfold trendingNormalizeWeights
  dsimp only
  split
  · refine ⟨by norm_num, by norm_num, by norm_num, by norm_num, by norm_num⟩
  · rename_i h
    push_neg at h
    exact ⟨trendSafe_nonneg _, trendSafe_nonneg _, trendSafe_nonneg _, rfl, h⟩

theorem velocityRaw_nonneg (s : ℚ) (r : TrendingRow) : 0 ≤ velocityRaw s r := by
  unfold velocityRaw jsMax
  split_ifs with h
  · linarith
  · linarith

theorem self_le_cohortMax (rows : List TrendingRow) (r : TrendingRow) (hr : r ∈ rows)
    (f : TrendingRow → ℚ) : f r ≤ cohortMax rows r.product_type f := by
  unfold cohortMax
  apply mem_le_foldr_jsMax
  exact List.mem_map_of_mem f (List.mem_filter.mpr ⟨hr, by simp⟩)

theorem cohortNormalize_bounds (raw maxRaw : ℚ) (h0 : 0 ≤ raw) (h1 : raw ≤ maxRaw) :
    0 ≤ cohortNormalize raw maxRaw ∧ cohortNormalize raw maxRaw ≤ 100 := by
  unfold cohortNormalize
  split_ifs with h
  · constructor
    · positivity
    · have hle : raw / maxRaw ≤ 1 := by
        rw [div_le_one h]
        exact h1
      nlinarith
  · norm_num

theorem trendingScoreRow_bounds (w : TrendingWeights) (rows : List TrendingRow) (s : ℚ)
    (r : TrendingRow) (hr : r ∈ rows)
    (hcounts : ∀ x ∈ rows, 0 ≤ x.views_7d ∧ 0 ≤ x.views_prev_7d ∧ 0 ≤ x.compares_7d)
    (hw : 0 ≤ w.views ∧ 0 ≤ w.compares ∧ 0 ≤ w.velocity ∧
      w.total = w.views + w.compares + w.velocity ∧ 0 < w.total) :
    0 ≤ trendingScoreRow w rows s r ∧ trendingScoreRow w rows s r ≤ 100 := by
  obtain ⟨hwv, hwc, hwvel, htot_eq, htot⟩ := hw
  have hv := (hcounts r hr).1
  have hc := (hcounts r hr).2.2
  have hnv := cohortNormalize_bounds r.views_7d _ hv
    (self_le_cohortMax rows r hr (fun x => x.views_7d))
  have hnc := cohortNormalize_bounds r.compares_7d _ hc
    (self_le_cohortMax rows r hr (fun x => x.compares_7d))
  have hnvel := cohortNormalize_bounds (velocityRaw s r) _ (velocityRaw_nonneg s r)
    (self_le_cohortMax rows r hr (velocityRaw s))
  unfold trendingScoreRow
  dsimp only
  rw [if_neg (ne_of_gt htot)]
  constructor
  · apply div_nonneg _ (le_of_lt htot)
    have t1 := mul_nonneg hnv.1 hwv
    have t2 := mul_nonneg hnc.1 hwc
    have t3 := mul_nonneg hnvel.1 hwvel
    linarith
  · rw [div_le_iff₀ htot]
    have t1 := mul_le_mul_of_nonneg_right hnv.2 hwv
    have t2 := mul_le_mul_of_nonneg_right hnc.2 hwc
    have t3 := mul_le_mul_of_nonneg_right hnvel.2 hwvel
    have hexp : 100 * w.total = 100 * w.views + 100 * w.compares + 100 * w.velocity := by
      rw [htot_eq]
      ring
    linarith

theorem hookFinalScore_bounds (bi tv fr w1 w2 w3 tot : ℝ) :
    0 ≤ hookFinalScore bi tv fr w1 w2 w3 tot ∧
      hookFinalScore bi tv fr w1 w2 w3 tot ≤ 100 := by
  unfold hookFinalScore sqlClampScore
  constructor
  · exact le_max_left 0 _
  · exact max_le (by norm_num) (min_le_left _ _)

theorem freshness_nonneg (a h : ℝ) : 0 ≤ freshness a h := le_max_left 0 _

theorem freshness_le_100 (a h : ℝ) : freshness a h ≤ 100 :=
  max_le (by norm_num) (min_le_left _ _)

theorem freshness_at_zero (h : ℝ) : freshness 0 h = 100 := by
  unfold freshness
  rw [show (-1 * (0:ℝ)) / h = 0 by simp]
  rw [Real.exp_zero]
  norm_num

theorem freshness_antitone (h a1 a2 : ℝ) (hh : 0 < h) (ha : a1 ≤ a2) :
    freshness a2 h ≤ freshness a1 h := by
  unfold freshness
  have hexp : Real.exp ((-1 * a2) / h) ≤ Real.exp ((-1 * a1) / h) := by
    apply Real.exp_le_exp.mpr
    apply div_le_div_of_nonneg_right ?_ hh.le
    linarith
  exact max_le_max (le_refl 0) (min_le_min (le_refl 100) (by linarith))

theorem freshness_tendsto_zero (h : ℝ) (hh : 0 < h) :
    Filter.Tendsto (fun a => freshness a h) Filter.atTop (nhds 0) := by
  have hg : Filter.Tendsto (fun a : ℝ => 100 * Real.exp ((-1 * a) / h))
      Filter.atTop (nhds 0) := by
    have h2 : Filter.Tendsto (fun a : ℝ => a / h) Filter.atTop Filter.atTop :=
      Filter.Tendsto.atTop_div_const hh Filter.tendsto_id
    have h3 := Filter.tendsto_neg_atTop_atBot.comp h2
    have h1 : Filter.Tendsto (fun a : ℝ => (-1 * a) / h) Filter.atTop Filter.atBot := by
      have heq : (fun a : ℝ => (-1 * a) / h) = (fun a : ℝ => -(a / h)) := by
        funext a
        ring
      rw [heq]
      exact h3
    have h4 := Real.tendsto_exp_atBot.comp h1
    have h5 := Filter.Tendsto.const_mul (100 : ℝ) h4
    simpa using h5
  apply squeeze_zero (fun a => freshness_nonneg a h) ?_ hg
  intro a
  unfold freshness
  have hpos : (0:ℝ) ≤ 100 * Real.exp ((-1 * a) / h) := by positivity
  exact max_le hpos (min_le_right _ _)

/-- The accumulator-aware form of the positive-price minimum fold. -/
def optFoldMin (acc : Option ℚ) (l : List ℚ) : Option ℚ :=
  match acc, l with
  | none, [] => none
  | none, x :: xs => some (xs.foldl jsMin x)
  | some a, l => some (l.foldl jsMin a)

theorem foldl_minPriceStep_eq (variants : List Variant) :
    ∀ acc : Option ℚ,
      variants.foldl minPriceStep acc = optFoldMin acc (positiveVariantPrices variants) := by
  induction variants with
  | nil =>
    intro acc
    cases acc <;> rfl
  | cons v vs ih =>
    intro acc
    rw [List.foldl_cons]
    rw [ih (minPriceStep acc v)]
    unfold positiveVariantPrices at *
    rcases hv : v.priceVal with _ | c
    · rw [List.filterMap_cons_none hv]
      simp only [minPriceStep, hv]
    · rw [List.filterMap_cons_some hv]
      by_cases hc : c ≤ 0
      · rw [List.filter_cons_of_neg (by simpa using not_lt.mpr hc)]
        simp only [minPriceStep, hv]
        rw [if_pos hc]
      · push_neg at hc
        rw [List.filter_cons_of_pos (by simpa using hc)]
        simp only [minPriceStep, hv]
        rw [if_neg (not_le.mpr hc)]
        cases acc <;> rfl

theorem minPositiveVariantPrice_eq (variants : List Variant) :
    minPositiveVariantPrice variants = optFoldMin none (positiveVariantPrices variants) :=
  foldl_minPriceStep_eq variants none

theorem minPositiveVariantPrice_spec (variants : List Variant) (m : ℚ)
    (h : minPositiveVariantPrice variants = some m) :
    m ∈ positiveVariantPrices variants ∧
      ∀ q ∈ positiveVariantPrices variants, m ≤ q := by
  rw [minPositiveVariantPrice_eq] at h
  rcases hl : positiveVariantPrices variants with _ | ⟨x, xs⟩
  · rw [hl] at h
    cases h
  · rw [hl] at h
    unfold optFoldMin at h
    have hm : m = xs.foldl jsMin x := (Option.some.inj h).symm
    constructor
    · rw [hm]
      rcases foldl_jsMin_mem_or_init xs x with h2 | h2
      · rw [h2]
        exact List.mem_cons_self x xs
      · exact List.mem_cons_of_mem x h2
    · intro q hq
      rw [hm]
      rcases List.mem_cons.mp hq with rfl | hq2
      · exact foldl_jsMin_le_init xs q
      · exact foldl_jsMin_le_mem xs x q hq2

theorem minPositiveVariantPrice_none (variants : List Variant)
    (h : minPositiveVariantPrice variants = none) :
    positiveVariantPrices variants = [] := by
  rw [minPositiveVariantPrice_eq] at h
  rcases hl : positiveVariantPrices variants with _ | ⟨x, xs⟩
  · rfl
  · rw [hl] at h
    cases h

theorem positiveVariantPrices_pos (variants : List Variant) (q : ℚ)
    (hq : q ∈ positiveVariantPrices variants) : 0 < q := by
  unfold positiveVariantPrices at hq
  have h := List.mem_filter.mp hq
  simpa using h.2

theorem extractPrice_selected (device : Device)
    (vsel : String → Option VariantSelection) (p : ℚ)
    (hp : selectedVariantPriceOf device vsel = some p) (hpos : 0 < p) :
    extractPrice device vsel = some p := by
  unfold extractPrice
  rw [hp]
  dsimp only
  rw [if_pos hpos]

theorem extractPrice_fallback (device : Device)
    (vsel : String → Option VariantSelection)
    (hsel : ∀ p, selectedVariantPriceOf device vsel = some p → p ≤ 0) :
    extractPrice device vsel = extractPriceFallback device := by
  unfold extractPrice
  rcases hs : selectedVariantPriceOf device vsel with _ | p
  · rfl
  · dsimp only
    rw [if_neg (not_lt.mpr (hsel p hs))]

theorem extractPriceFallback_min (device : Device) (m : ℚ)
    (hm : minPositiveVariantPrice device.variants = some m) :
    extractPriceFallback device = some m := by
  unfold extractPriceFallback
  rw [hm]

theorem extractPriceFallback_device (device : Device)
    (hmin : minPositiveVariantPrice device.variants = none) (p : ℚ)
    (hp : device.devicePriceVal = some p) (hpos : 0 < p) :
    extractPriceFallback device = some p := by
  unfold extractPriceFallback
  rw [hmin, hp]
  dsimp only
  rw [if_pos hpos]

theorem extractPriceFallback_none (device : Device)
    (hmin : minPositiveVariantPrice device.variants = none)
    (hdev : ∀ p, device.devicePriceVal = some p → p ≤ 0) :
    extractPriceFallback device = none := by
  unfold extractPriceFallback
  rw [hmin]
  rcases hd : device.devicePriceVal with _ | p
  · rfl
  · dsimp only
    rw [if_neg (not_lt.mpr (hdev p hd))]

theorem extractPriceFallback_pos (device : Device) (p : ℚ)
    (h : extractPriceFallback device = some p) : 0 < p := by
  unfold extractPriceFallback at h
  rcases hm : minPositiveVariantPrice device.variants with _ | m
  · rw [hm] at h
    dsimp only at h
    rcases hd : device.devicePriceVal with _ | q
    · rw [hd] at h
      cases h
    · rw [hd] at h
      dsimp only at h
      by_cases hq : 0 < q
      · rw [if_pos hq] at h
        rw [← Option.some.inj h]
        exact hq
      · rw [if_neg hq] at h
        cases h
  · rw [hm] at h
    dsimp only at h
    have hmp := Option.some.inj h
    have hspec := minPositiveVariantPrice_spec device.variants m hm
    rw [← hmp]
    exact positiveVariantPrices_pos device.variants m hspec.1

theorem extractPrice_pos (device : Device)
    (vsel : String → Option VariantSelection) (p : ℚ)
    (h : extractPrice device vsel = some p) : 0 < p := by
  unfold extractPrice at h
  rcases hs : selectedVariantPriceOf device vsel with _ | q
  · rw [hs] at h
    dsimp only at h
    exact extractPriceFallback_pos device p h
  · rw [hs] at h
    dsimp only at h
    by_cases hq : 0 < q
    · rw [if_pos hq] at h
      rw [← Option.some.inj h]
      exact hq
    · rw [if_neg hq] at h
      exact extractPriceFallback_pos device p h

theorem compareScoreRow_valueRaw (rules : List ChipsetRule)
    (vsel : String → Option VariantSelection) (d : Device) :
    (compareScoreRow rules vsel d).valueRaw =
      (extractPrice d vsel).map (fun p => baseSpecScore rules d / p) := by
  unfold compareScoreRow
  dsimp only
  rcases hp : extractPrice d vsel with _ | p
  · rfl
  · dsimp only
    rw [if_pos (extractPrice_pos d vsel p hp)]
    rfl

theorem compareScoreRow_price (rules : List ChipsetRule)
    (vsel : String → Option VariantSelection) (d : Device) :
    (compareScoreRow rules vsel d).price = extractPrice d vsel := rfl

theorem compareMinValue_spec (scored : List ScoredRow) (mn : ℚ)
    (h : compareMinValue scored = some mn) :
    mn ∈ scored.filterMap (fun r => r.valueRaw) ∧
      ∀ q ∈ scored.filterMap (fun r => r.valueRaw), mn ≤ q := by
  unfold compareMinValue at h
  rcases hl : scored.filterMap (fun r => r.valueRaw) with _ | ⟨x, xs⟩
  · rw [hl] at h
    cases h
  · rw [hl] at h
    cases h
    rw [hl]
    constructor
    · rcases foldl_jsMin_mem_or_init xs x with h2 | h2
      · rw [h2]
        exact List.mem_cons_self x xs
      · exact List.mem_cons_of_mem x h2
    · intro q hq
      rcases List.mem_cons.mp hq with rfl | hq2
      · exact foldl_jsMin_le_init xs q
      · exact foldl_jsMin_le_mem xs x q hq2

theorem compareMaxValue_spec (scored : List ScoredRow) (mx : ℚ)
    (h : compareMaxValue scored = some mx) :
    mx ∈ scored.filterMap (fun r => r.valueRaw) ∧
      ∀ q ∈ scored.filterMap (fun r => r.valueRaw), q ≤ mx := by
  unfold compareMaxValue at h
  rcases hl : scored.filterMap (fun r => r.valueRaw) with _ | ⟨x, xs⟩
  · rw [hl] at h
    cases h
  · rw [hl] at h
    cases h
    rw [hl]
    constructor
    · rcases foldl_jsMax_mem_or_init xs x with h2 | h2
      · rw [h2]
        exact List.mem_cons_self x xs
      · exact List.mem_cons_of_mem x h2
    · intro q hq
      rcases List.mem_cons.mp hq with rfl | hq2
      · exact init_le_foldl_jsMax xs q
      · exact mem_le_foldl_jsMax xs x q hq2

theorem compareScoredWithValue_length (devices : List Device)
    (vsel : String → Option VariantSelection) (cfg : CompareConfig) :
    (compareScoredWithValue devices vsel cfg).length = devices.length := by
  unfold compareScoredWithValue compareScoredRows
  dsimp only
  rw [List.length_map, List.length_map]

theorem buildCompareRanking_length (devices : List Device)
    (vsel : String → Option VariantSelection) (cfg : CompareConfig) :
    (buildCompareRanking devices vsel cfg).length = devices.length := by
  unfold buildCompareRanking
  dsimp only
  rw [List.length_map, List.enum_length, List.length_insertionSort,
    compareScoredWithValue_length]

theorem sortedRanking_length (devices : List Device)
    (vsel : String → Option VariantSelection) (cfg : CompareConfig) :
    ((compareScoredWithValue devices vsel cfg).insertionSort compareRankRel).length =
      (buildCompareRanking devices vsel cfg).length := by
  unfold buildCompareRanking
  dsimp only
  rw [List.length_map, List.enum_length]

theorem buildCompareRanking_get (devices : List Device)
    (vsel : String → Option VariantSelection) (cfg : CompareConfig) (i : ℕ)
    (hi : i < (buildCompareRanking devices vsel cfg).length) :
    (buildCompareRanking devices vsel cfg).get ⟨i, hi⟩ =
      { ((compareScoredWithValue devices vsel cfg).insertionSort compareRankRel).get
          ⟨i, by rw [sortedRanking_length]; exact hi⟩ with
        rank := i + 1 } := by
  unfold buildCompareRanking at hi ⊢
  dsimp only at hi ⊢
  rw [List.get_eq_getElem, List.getElem_map, List.getElem_enum]
  rfl

theorem buildCompareRanking_rank (devices : List Device)
    (vsel : String → Option VariantSelection) (cfg : CompareConfig) (i : ℕ)
    (hi : i < (buildCompareRanking devices vsel cfg).length) :
    ((buildCompareRanking devices vsel cfg).get ⟨i, hi⟩).rank = i + 1 := by
  rw [buildCompareRanking_get]

theorem compareRankRel_rank_irrel (a b : RankedDevice) (m n : ℕ) :
    compareRankRel { a with rank := m } { b with rank := n } ↔ compareRankRel a b :=
  Iff.rfl

theorem buildCompareRanking_sorted (devices : List Device)
    (vsel : String → Option VariantSelection) (cfg : CompareConfig) (i j : ℕ)
    (hi : i < (buildCompareRanking devices vsel cfg).length)
    (hj : j < (buildCompareRanking devices vsel cfg).length) (hij : i < j) :
    compareRankRel ((buildCompareRanking devices vsel cfg).get ⟨i, hi⟩)
      ((buildCompareRanking devices vsel cfg).get ⟨j, hj⟩) := by
  rw [buildCompareRanking_get, buildCompareRanking_get]
  rw [compareRankRel_rank_irrel]
  have hs := List.sorted_insertionSort compareRankRel (compareScoredWithValue devices vsel cfg)
  exact List.Sorted.rel_get_of_lt hs (Fin.mk_lt_mk.mpr hij)

theorem hookNormalizeWeights_fallback (w : String → JsNum) (defaults : List (String × ℚ))
    (h : ((hookSanitized w defaults).map (fun p => p.2)).sum ≤ 0) :
    hookNormalizeWeights w defaults =
      (defaults,
        if (defaults.map (fun p => p.2)).sum = 0 then 1 else (defaults.map (fun p => p.2)).sum) := by
  unfold hookNormalizeWeights
  dsimp only
  rw [if_pos h]

theorem hookNormalizeWeights_main (w : String → JsNum) (defaults : List (String × ℚ))
    (h : 0 < ((hookSanitized w defaults).map (fun p => p.2)).sum) :
    hookNormalizeWeights w defaults =
      (hookSanitized w defaults, ((hookSanitized w defaults).map (fun p => p.2)).sum) := by
  unfold hookNormalizeWeights
  dsimp only
  rw [if_neg (not_le.mpr h)]

theorem hookNormalizeWeights_total_pos (w : String → JsNum) (defaults : List (String × ℚ))
    (hd : 0 < (defaults.map (fun p => p.2)).sum) :
    0 < (hookNormalizeWeights w defaults).2 := by
  by_cases h : ((hookSanitized w defaults).map (fun p => p.2)).sum ≤ 0
  · rw [hookNormalizeWeights_fallback w defaults h]
    dsimp only
    rw [if_neg (ne_of_gt hd)]
    exact hd
  · push_neg at h
    rw [hookNormalizeWeights_main w defaults h]
    exact h

theorem trendingNormalizeWeights_fallback (w : TrendingWeightsIn)
    (h : trendSafe (trendMergedValue w.views 0.4) + trendSafe (trendMergedValue w.compares 0.4) +
      trendSafe (trendMergedValue w.velocity 0.2) ≤ 0) :
    trendingNormalizeWeights w =
      { views := 0.4, compares := 0.4, velocity := 0.2, total := 1 } := by
  unfold trendingNormalizeWeights
  dsimp only
  rw [if_pos h]

theorem trendingNormalizeWeights_main (w : TrendingWeightsIn)
    (h : 0 < trendSafe (trendMergedValue w.views 0.4) + trendSafe (trendMergedValue w.compares 0.4) +
      trendSafe (trendMergedValue w.velocity 0.2)) :
    trendingNormalizeWeights w =
      { views := trendSafe (trendMergedValue w.views 0.4),
        compares := trendSafe (trendMergedValue w.compares 0.4),
        velocity := trendSafe (trendMergedValue w.velocity 0.2),
        total := trendSafe (trendMergedValue w.views 0.4) +
          trendSafe (trendMergedValue w.compares 0.4) +
          trendSafe (trendMergedValue w.velocity 0.2) } := by
  unfold trendingNormalizeWeights
  dsimp only
  rw [if_neg (not_le.mpr h)]

/-- Claim C3: under the default chipset keyword table, the processor text
"Snapdragon 8 Gen 3" scores exactly 95 (a direct keyword-table hit), and
"Snapdragon 8 Gen 5" (absent from the table) scores exactly 96 via the regex
heuristic `clamp(50 + series*8 + gen*2, 52, 96)` with series = 8 and gen = 5
(50 + 64 + 10 = 124, clamped to 96). -/
theorem claim_C3_chipset_examples :
    scoreChipset ("Snapdragon 8 Gen 3") DEFAULT_CHIPSET_RULES = 95 ∧
      scoreChipset ("Snapdragon 8 Gen 5") DEFAULT_CHIPSET_RULES = 96 ∧
      clamp (50 + 8 * 8 + 5 * 2) 52 96 = 96 := by
  refine ⟨by decide, by decide, by decide⟩

/-- Claim C4, counterexample: the claim says the fixed neutral score 60 is
returned "for every processor text input (including empty or absent text)"
with no table or heuristic match, but the source returns 45 for empty
normalized text (`if (!text) return 45`), not 60. -/
theorem claim_C4_counterexample :
    scoreChipset ("") DEFAULT_CHIPSET_RULES = 45 ∧ (45 : ℚ) ≠ 60 := by
  refine ⟨by decide, by decide⟩

/-- Claim C4 as amended: empty or absent processor text scores the separate
neutral value 45; for every processor text whose normalized form is non-empty,
for which no keyword-table entry matches and none of the numeric pattern
heuristics (Snapdragon series/gen, Dimensity model, Apple A-chip) nor the
tensor/exynos substring fallbacks match, the chipset scorer returns the fixed
neutral score 60. -/
theorem claim_C4_amended :
    (∀ rules : List ChipsetRule, scoreChipset ("") rules = 45) ∧
      (∀ (t : String) (rules : List ChipsetRule),
        normalizeText t ≠ "" →
        rules.find? (fun rule =>
          rule.keyword != "" && strIncludes (normalizeText t) rule.keyword) = none →
        scanFirst matchSnapdragonAt (normalizeText t).data = none →
        scanFirst matchDimensityAt (normalizeText t).data = none →
        scanFirst matchAppleAt (normalizeText t).data = none →
        strIncludes (normalizeText t) ("tensor") = false →
        strIncludes (normalizeText t) ("exynos") = false →
        scoreChipset t rules = 60) := by
  constructor
  · intro rules
    rfl
  · intro t rules hne hrule hsd hdim hap htensor hexynos
    unfold scoreChipset
    dsimp only
    rw [if_neg hne, hrule, hsd, hdim, hap]
    simp only [htensor, hexynos]
    rfl

/-- Witness for the amended claim C4 at the concrete text "mystery chip"
with the default table. -/
theorem claim_C4_amended_witness :
    scoreChipset ("mystery chip") DEFAULT_CHIPSET_RULES = 60 :=
  claim_C4_amended.2 ("mystery chip") DEFAULT_CHIPSET_RULES (by decide) (by decide)
    (by decide) (by decide) (by decide) (by decide) (by decide)

/-- Claim C7: `buildCompareRanking` is total and returns exactly one annotated
entry per input device: the output length always equals the input length, the
empty device list yields the empty ranked list, and a device whose spec
blocks are all empty (or unparseable, which `toObject` maps to the same empty
blocks) still receives a full breakdown of neutral-default sub-scores
(performance 45, display 48, camera 34, battery 35, value 45, overall 42) and
appears in the ranked output with rank 1 — never dropped. -/
theorem claim_C7_total_bestEffort :
    (∀ (devices : List Device) (vsel : String → Option VariantSelection)
        (cfg : CompareConfig),
      (buildCompareRanking devices vsel cfg).length = devices.length) ∧
      (∀ (vsel : String → Option VariantSelection) (cfg : CompareConfig),
        buildCompareRanking [] vsel cfg = []) ∧
      buildCompareRanking [{}] (fun _ => none) {} = [emptySpecsRankedDevice] := by
  refine ⟨buildCompareRanking_length, ?_, by decide⟩
  intro vsel cfg
  rfl

/-- Claim C8: when the advisory try-lock is not acquired, the orchestrator
body shared by `recomputeProductDynamicScoreByType` and
`recomputeProductTrendingScores` performs no score write and returns
`{ ok: true, skipped: true, updated: 0 }` (with reason "lock_unavailable")
instead of raising; and for two invocations of the same family+type whose
try-locks overlap, exactly one proceeds to update rows while the other
reports skipped with zero updates and writes nothing. -/
theorem claim_C8_lock_skip :
    (∀ rows : List String,
      orchestratorRun false rows =
        ({ ok := true, skipped := true, reason := "lock_unavailable", updated := 0 }, [])) ∧
      (∀ rows1 rows2 : List String,
        (overlappingOrchestratorRuns rows1 rows2).1.1.ok = true ∧
          (overlappingOrchestratorRuns rows1 rows2).1.1.skipped = false ∧
          (overlappingOrchestratorRuns rows1 rows2).1.1.updated = rows1.length ∧
          (overlappingOrchestratorRuns rows1 rows2).1.2 = rows1 ∧
          (overlappingOrchestratorRuns rows1 rows2).2.1 =
            { ok := true, skipped := true, reason := "lock_unavailable", updated := 0 } ∧
          (overlappingOrchestratorRuns rows1 rows2).2.2 = []) := by
  constructor
  · intro rows
    rfl
  · intro rows1 rows2
    exact ⟨rfl, rfl, rfl, rfl, rfl, rfl⟩

/-- Claim C9: the freshness decay
`clamp(100 * e^(-age_days / half_life_days), 0, 100)` is monotonically
non-increasing in `age_days` for non-negative ages and positive half-life
(the source default is 365 days), always lies in [0, 100], equals 100 at
`age_days = 0`, and tends to 0 as `age_days → ∞`. -/
theorem claim_C9_freshness :
    (∀ a1 a2 h : ℝ, 0 ≤ a1 → a1 ≤ a2 → 0 < h → freshness a2 h ≤ freshness a1 h) ∧
      (∀ a h : ℝ, 0 ≤ freshness a h ∧ freshness a h ≤ 100) ∧
      (∀ h : ℝ, freshness 0 h = 100) ∧
      (∀ h : ℝ, 0 < h →
        Filter.Tendsto (fun a => freshness a h) Filter.atTop (nhds 0)) := by
  refine ⟨?_, ?_, freshness_at_zero, freshness_tendsto_zero⟩
  · intro a1 a2 h _ ha hh
    exact freshness_antitone h a1 a2 hh ha
  · intro a h
    exact ⟨freshness_nonneg a h, freshness_le_100 a h⟩

/-- Witness for claim C9 at age days 0 ≤ 1 and the default half-life 365. -/
theorem claim_C9_freshness_witness :
    freshness 1 365 ≤ freshness 0 365 ∧
      Filter.Tendsto (fun a => freshness a 365) Filter.atTop (nhds 0) :=
  ⟨claim_C9_freshness.1 0 1 365 (by norm_num) (by norm_num) (by norm_num),
    claim_C9_freshness.2.2.2 365 (by norm_num)⟩

/-- Claim C10: for every configuration input, the compare-ranking weight
normalizer returns a weight vector over
{performance, display, camera, battery, priceValue} whose components all lie
in [0, 1] and sum to exactly 1 (after the divide-by-100 rescale applied when
the raw sum exceeds 1.5 and the final residual adjustment of the first key),
so the compare composite is a convex combination of its sub-scores. -/
theorem claim_C10_weights_convex :
    ∀ input : CompareWeightsIn,
      (0 ≤ (compareNormalizeWeights input).performance ∧
          (compareNormalizeWeights input).performance ≤ 1) ∧
        (0 ≤ (compareNormalizeWeights input).display ∧
          (compareNormalizeWeights input).display ≤ 1) ∧
        (0 ≤ (compareNormalizeWeights input).camera ∧
          (compareNormalizeWeights input).camera ≤ 1) ∧
        (0 ≤ (compareNormalizeWeights input).battery ∧
          (compareNormalizeWeights input).battery ≤ 1) ∧
        (0 ≤ (compareNormalizeWeights input).priceValue ∧
          (compareNormalizeWeights input).priceValue ≤ 1) ∧
        (compareNormalizeWeights input).performance +
            (compareNormalizeWeights input).display +
            (compareNormalizeWeights input).camera +
            (compareNormalizeWeights input).battery +
            (compareNormalizeWeights input).priceValue = 1 := by
  intro input
  have h := compareNormalizeWeights_spec input
  unfold compareWeightsSum at h
  exact h

/-- Claim C1, counterexample: the claim says every score family — including
the trending-score family — treats a negative or non-finite weight as the
supplied default for that key, but `normalizeWeights` of
`src/utils/trendingScore.js` zeroes such weights (`safe(n) = ... ? n : 0`):
with a supplied views weight of −1 the normalized views weight is 0, not the
views default 0.4. -/
theorem claim_C1_counterexample :
    trendingNormalizeWeights
        { views := .val (-1), compares := .missing, velocity := .missing } =
      { views := 0, compares := 0.4, velocity := 0.2, total := 0.6 } ∧
      (0 : ℚ) ≠ 0.4 := by
  refine ⟨by decide, by decide⟩

/-- Claim C1 as amended: in the hook-score families (buyer-intent,
trend-velocity, top-level hook-score weights) each negative or non-finite
weight is treated as the supplied default for that key, while in the
trending-score family it is treated as 0; in every family, if the sum of the
sanitized weights is ≤ 0 the full default set is substituted (hook side with
total `fallbackTotal || 1`, trending side with total 1), and otherwise the
raw sum of the sanitized weights is preserved as the divisor of the weighted
average; with a positive-sum default set the divisor is always positive, so
the composite is never NaN and never a division by zero. -/
theorem claim_C1_amended :
    (∀ d : ℚ, toNonNegativeNumber .nonfinite d = d) ∧
      (∀ q d : ℚ, q < 0 → toNonNegativeNumber (.val q) d = d) ∧
      (∀ (w : String → JsNum) (defaults : List (String × ℚ)),
        ((hookSanitized w defaults).map (fun p => p.2)).sum ≤ 0 →
          hookNormalizeWeights w defaults =
            (defaults,
              if (defaults.map (fun p => p.2)).sum = 0 then 1
              else (defaults.map (fun p => p.2)).sum)) ∧
      (∀ (w : String → JsNum) (defaults : List (String × ℚ)),
        0 < ((hookSanitized w defaults).map (fun p => p.2)).sum →
          hookNormalizeWeights w defaults =
            (hookSanitized w defaults, ((hookSanitized w defaults).map (fun p => p.2)).sum)) ∧
      (∀ (w : String → JsNum) (defaults : List (String × ℚ)),
        0 < (defaults.map (fun p => p.2)).sum → 0 < (hookNormalizeWeights w defaults).2) ∧
      (∀ q d : ℚ, q < 0 → trendSafe (trendMergedValue (.val q) d) = 0) ∧
      (∀ d : ℚ, trendSafe (trendMergedValue .nonfinite d) = 0) ∧
      (∀ w : TrendingWeightsIn,
        trendSafe (trendMergedValue w.views 0.4) + trendSafe (trendMergedValue w.compares 0.4) +
            trendSafe (trendMergedValue w.velocity 0.2) ≤ 0 →
          trendingNormalizeWeights w =
            { views := 0.4, compares := 0.4, velocity := 0.2, total := 1 }) ∧
      (∀ w : TrendingWeightsIn,
        0 < trendSafe (trendMergedValue w.views 0.4) +
            trendSafe (trendMergedValue w.compares 0.4) +
            trendSafe (trendMergedValue w.velocity 0.2) →
          trendingNormalizeWeights w =
            { views := trendSafe (trendMergedValue w.views 0.4),
              compares := trendSafe (trendMergedValue w.compares 0.4),
              velocity := trendSafe (trendMergedValue w.velocity 0.2),
              total := trendSafe (trendMergedValue w.views 0.4) +
                trendSafe (trendMergedValue w.compares 0.4) +
                trendSafe (trendMergedValue w.velocity 0.2) }) ∧
      (∀ w : TrendingWeightsIn, 0 < (trendingNormalizeWeights w).total) := by
  refine ⟨?_, ?_, hookNormalizeWeights_fallback, hookNormalizeWeights_main,
    hookNormalizeWeights_total_pos, ?_, ?_, trendingNormalizeWeights_fallback,
    trendingNormalizeWeights_main, ?_⟩
  · intro d
    rfl
  · intro q d hq
    unfold toNonNegativeNumber
    dsimp only
    rw [if_pos hq]
  · intro q d hq
    unfold trendSafe trendMergedValue
    dsimp only
    rw [if_neg (not_le.mpr hq)]
  · intro d
    rfl
  · intro w
    exact (trendingNormalizeWeights_spec w).2.2.2.2

/-- Witness for the amended claim C1: per-key default substitution for a
negative hook-side weight; whole-set fallback for an all-zero buyer-intent
weight set; raw-sum preservation for a percent-style trending weight set;
zeroing (not default substitution) of a negative trending weight. -/
theorem claim_C1_amended_witness :
    toNonNegativeNumber (.val (-2)) 0.3 = 0.3 ∧
      hookNormalizeWeights (fun _ => .val 0) DEFAULT_BUYER_INTENT_WEIGHTS =
        (DEFAULT_BUYER_INTENT_WEIGHTS, 1) ∧
      hookNormalizeWeights (fun _ => .val 40) DEFAULT_HOOK_SCORE_WEIGHTS =
        ([("buyer_intent", 40), ("trend_velocity", 40), ("freshness", 40)], 120) ∧
      trendSafe (trendMergedValue (.val (-1)) 0.4) = 0 ∧
      0 < (trendingNormalizeWeights
        { views := .val (-1), compares := .missing, velocity := .missing }).total := by
  refine ⟨claim_C1_amended.2.1 (-2) 0.3 (by norm_num), ?_, ?_,
    claim_C1_amended.2.2.2.2.2.1 (-1) 0.4 (by norm_num),
    claim_C1_amended.2.2.2.2.2.2.2.2.2 _⟩
  · have h := claim_C1_amended.2.2.1 (fun _ => .val 0) DEFAULT_BUYER_INTENT_WEIGHTS (by decide)
    rw [h]
    decide
  · have h := claim_C1_amended.2.2.2.1 (fun _ => .val 40) DEFAULT_HOOK_SCORE_WEIGHTS (by decide)
    rw [h]
    decide

/-- Claim C2: for every valid input (non-negative event counts, arbitrary
weight configuration, any device/spec list), the hook score — clamped by
`GREATEST(0, LEAST(100, ...))` in the `final_score` CTE —, the trending score
— an unclamped weighted average of cohort-normalized signals in the `scored`
CTE —, and the compare composite `overallScore` of `buildCompareRanking` all
lie within [0, 100]. -/
theorem claim_C2_score_bounds :
    (∀ bi tv fr w1 w2 w3 tot : ℝ,
      0 ≤ hookFinalScore bi tv fr w1 w2 w3 tot ∧
        hookFinalScore bi tv fr w1 w2 w3 tot ≤ 100) ∧
      (∀ (wIn : TrendingWeightsIn) (rows : List TrendingRow) (s : ℚ) (r : TrendingRow),
        r ∈ rows →
        (∀ x ∈ rows, 0 ≤ x.views_7d ∧ 0 ≤ x.views_prev_7d ∧ 0 ≤ x.compares_7d) →
        0 ≤ trendingScoreRow (trendingNormalizeWeights wIn) rows s r ∧
          trendingScoreRow (trendingNormalizeWeights wIn) rows s r ≤ 100) ∧
      (∀ (devices : List Device) (vsel : String → Option VariantSelection)
          (cfg : CompareConfig) (r : RankedDevice),
        r ∈ buildCompareRanking devices vsel cfg →
        0 ≤ r.overallScore ∧ r.overallScore ≤ 100) := by
  refine ⟨hookFinalScore_bounds, ?_, buildCompareRanking_overallScore_bounds⟩
  intro wIn rows s r hr hcounts
  exact trendingScoreRow_bounds (trendingNormalizeWeights wIn) rows s r hr hcounts
    (trendingNormalizeWeights_spec wIn)

/-- Witness for claim C2 at a concrete trending cohort (one smartphone row
with 100 recent views, 50 previous views, 3 compares, smoothing 5, default
weights) and a concrete compare ranking (one device with empty specs). -/
theorem claim_C2_score_bounds_witness :
    (0 ≤ hookFinalScore 50 50 100 0.5 0.3 0.2 1 ∧
        hookFinalScore 50 50 100 0.5 0.3 0.2 1 ≤ 100) ∧
      (0 ≤ trendingScoreRow (trendingNormalizeWeights {}) [exampleTrendingRow] 5
            exampleTrendingRow ∧
        trendingScoreRow (trendingNormalizeWeights {}) [exampleTrendingRow] 5
            exampleTrendingRow ≤ 100) ∧
      (0 ≤ emptySpecsRankedDevice.overallScore ∧
        emptySpecsRankedDevice.overallScore ≤ 100) :=
  ⟨claim_C2_score_bounds.1 50 50 100 0.5 0.3 0.2 1,
    claim_C2_score_bounds.2.1 {} [exampleTrendingRow] 5 exampleTrendingRow
      (by decide) (by decide),
    claim_C2_score_bounds.2.2 [{}] (fun _ => none) {} emptySpecsRankedDevice (by decide)⟩

/-- Claim C5: price-value scoring is relative to the candidate set only. The
raw value ratio of a scored row is `baseSpecScore / price` for the resolved
price (which is the user-selected variant's price when positive, else the
minimum positive variant price, else a positive device-level price, else
null); the set minimum/maximum used for rescaling are the minimum/maximum of
the set's raw ratios; a row with no resolvable price gets the fixed neutral
value score 45; when max = min (in particular when all resolvable ratios are
equal) every priced row gets the fixed value score 70; otherwise the ratio is
rescaled within [min, max] onto [35, 100]. -/
theorem claim_C5_price_value :
    (∀ (rules : List ChipsetRule) (vsel : String → Option VariantSelection) (d : Device),
      (compareScoreRow rules vsel d).valueRaw =
        (extractPrice d vsel).map (fun p => baseSpecScore rules d / p)) ∧
      (∀ (d : Device) (vsel : String → Option VariantSelection) (p : ℚ),
        selectedVariantPriceOf d vsel = some p → 0 < p → extractPrice d vsel = some p) ∧
      (∀ (d : Device) (vsel : String → Option VariantSelection) (m : ℚ),
        (∀ p, selectedVariantPriceOf d vsel = some p → p ≤ 0) →
        minPositiveVariantPrice d.variants = some m →
        extractPrice d vsel = some m ∧ m ∈ positiveVariantPrices d.variants ∧
          ∀ q ∈ positiveVariantPrices d.variants, m ≤ q) ∧
      (∀ (d : Device) (vsel : String → Option VariantSelection) (p : ℚ),
        (∀ q, selectedVariantPriceOf d vsel = some q → q ≤ 0) →
        minPositiveVariantPrice d.variants = none →
        d.devicePriceVal = some p → 0 < p → extractPrice d vsel = some p) ∧
      (∀ (d : Device) (vsel : String → Option VariantSelection),
        (∀ q, selectedVariantPriceOf d vsel = some q → q ≤ 0) →
        minPositiveVariantPrice d.variants = none →
        (∀ q, d.devicePriceVal = some q → q ≤ 0) → extractPrice d vsel = none) ∧
      (∀ mn mx : Option ℚ, compareValueScore none mn mx = 45) ∧
      (∀ v mn : ℚ, compareValueScore (some v) (some mn) (some mn) = 70) ∧
      (∀ v mn mx : ℚ, mn ≠ mx →
        compareValueScore (some v) (some mn) (some mx) =
          35 + (v - mn) / (mx - mn) * 65) ∧
      (∀ (scored : List ScoredRow) (mn : ℚ), compareMinValue scored = some mn →
        mn ∈ scored.filterMap (fun r => r.valueRaw) ∧
          ∀ q ∈ scored.filterMap (fun r => r.valueRaw), mn ≤ q) ∧
      (∀ (scored : List ScoredRow) (mx : ℚ), compareMaxValue scored = some mx →
        mx ∈ scored.filterMap (fun r => r.valueRaw) ∧
          ∀ q ∈ scored.filterMap (fun r => r.valueRaw), q ≤ mx) := by
  refine ⟨compareScoreRow_valueRaw, extractPrice_selected, ?_, ?_, ?_, ?_, ?_, ?_,
    compareMinValue_spec, compareMaxValue_spec⟩
  · intro d vsel m hsel hm
    have hspec := minPositiveVariantPrice_spec d.variants m hm
    refine ⟨?_, hspec.1, hspec.2⟩
    rw [extractPrice_fallback d vsel hsel]
    exact extractPriceFallback_min d m hm
  · intro d vsel p hsel hmin hp hpos
    rw [extractPrice_fallback d vsel hsel]
    exact extractPriceFallback_device d hmin p hp hpos
  · intro d vsel hsel hmin hdev
    rw [extractPrice_fallback d vsel hsel]
    exact extractPriceFallback_none d hmin hdev
  · intro mn mx
    rfl
  · intro v mn
    unfold compareValueScore
    dsimp only
    rw [if_pos rfl]
  · intro v mn mx hne
    unfold compareValueScore
    dsimp only
    rw [if_neg (Ne.symm hne)]

/-- Witness for claim C5: a device whose default-picked variant has positive
price 500 resolves to it; a device whose picked variant price is 0 falls back
to the minimum positive variant price 300; the value-score branches evaluated
at concrete ratios. -/
theorem claim_C5_price_value_witness :
    (compareScoreRow DEFAULT_CHIPSET_RULES (fun _ => none) exampleDeviceA).valueRaw =
        (extractPrice exampleDeviceA (fun _ => none)).map
          (fun p => baseSpecScore DEFAULT_CHIPSET_RULES exampleDeviceA / p) ∧
      extractPrice exampleDeviceA (fun _ => none) = some 500 ∧
      extractPrice exampleDeviceB (fun _ => none) = some 300 ∧
      compareValueScore none (some 1) (some 3) = 45 ∧
      compareValueScore (some 2) (some 1) (some 1) = 70 ∧
      compareValueScore (some 2) (some 1) (some 3) = 35 + (2 - 1) / (3 - 1) * 65 := by
  refine ⟨claim_C5_price_value.1 DEFAULT_CHIPSET_RULES (fun _ => none) exampleDeviceA,
    claim_C5_price_value.2.1 exampleDeviceA (fun _ => none) 500 (by decide) (by norm_num),
    (claim_C5_price_value.2.2.1 exampleDeviceB (fun _ => none) 300 ?_ (by decide)).1,
    claim_C5_price_value.2.2.2.2.2.1 (some 1) (some 3),
    claim_C5_price_value.2.2.2.2.2.2.1 2 1,
    claim_C5_price_value.2.2.2.2.2.2.2.1 2 1 3 (by norm_num)⟩
  intro p hp
  have : p = 0 := by
    have hd : selectedVariantPriceOf exampleDeviceB (fun _ => none) = some 0 := by decide
    rw [hd] at hp
    exact (Option.some.inj hp).symm
  rw [this]

/-- Claim C6: the compare ranking orders devices by composite score
descending; between entries with equal composite scores the price sort key
(price with null as +∞) is non-decreasing, so with different prices the
cheaper device ranks first; with equal composite scores and equal prices the
device name is non-decreasing (lexicographic order, modelling
`localeCompare`), so the lexicographically smaller name ranks first; and each
output entry carries the 1-based rank equal to its position. -/
theorem claim_C6_ranking_order :
    (∀ (devices : List Device) (vsel : String → Option VariantSelection)
        (cfg : CompareConfig) (i : ℕ)
        (hi : i < (buildCompareRanking devices vsel cfg).length),
      ((buildCompareRanking devices vsel cfg).get ⟨i, hi⟩).rank = i + 1) ∧
      (∀ (devices : List Device) (vsel : String → Option VariantSelection)
          (cfg : CompareConfig) (i j : ℕ)
          (hi : i < (buildCompareRanking devices vsel cfg).length)
          (hj : j < (buildCompareRanking devices vsel cfg).length), i < j →
        (((buildCompareRanking devices vsel cfg).get ⟨j, hj⟩).overallScore ≤
            ((buildCompareRanking devices vsel cfg).get ⟨i, hi⟩).overallScore) ∧
          (((buildCompareRanking devices vsel cfg).get ⟨i, hi⟩).overallScore =
              ((buildCompareRanking devices vsel cfg).get ⟨j, hj⟩).overallScore →
            priceSortKey ((buildCompareRanking devices vsel cfg).get ⟨i, hi⟩).price ≤
              priceSortKey ((buildCompareRanking devices vsel cfg).get ⟨j, hj⟩).price) ∧
          (((buildCompareRanking devices vsel cfg).get ⟨i, hi⟩).overallScore =
              ((buildCompareRanking devices vsel cfg).get ⟨j, hj⟩).overallScore →
            ((buildCompareRanking devices vsel cfg).get ⟨i, hi⟩).price =
              ((buildCompareRanking devices vsel cfg).get ⟨j, hj⟩).price →
            ((buildCompareRanking devices vsel cfg).get ⟨i, hi⟩).deviceName.data ≤
              ((buildCompareRanking devices vsel cfg).get ⟨j, hj⟩).deviceName.data)) := by
  refine ⟨buildCompareRanking_rank, ?_⟩
  intro devices vsel cfg i j hi hj hij
  have hrel := buildCompareRanking_sorted devices vsel cfg i j hi hj hij
  unfold compareRankRel at hrel
  rcases hrel with hlt | ⟨heq, hrest⟩
  · refine ⟨le_of_lt hlt, ?_, ?_⟩
    · intro he
      exfalso
      rw [he] at hlt
      exact lt_irrefl _ hlt
    · intro he _
      exfalso
      rw [he] at hlt
      exact lt_irrefl _ hlt
  · refine ⟨le_of_eq heq.symm, ?_, ?_⟩
    · intro _
      rcases hrest with hp | ⟨hp, _⟩
      · exact le_of_lt hp
      · exact le_of_eq hp
    · intro _ hpe
      rcases hrest with hp | ⟨_, hn⟩
      · exfalso
        rw [hpe] at hp
        exact lt_irrefl _ hp
      · exact hn

/-- Witness for claim C6 on a concrete two-device ranking (both devices have
empty specs and equal composite score 42 and no price, so the tie-break runs
through the name comparison: "Alpha" ranks before "Device"). -/
theorem claim_C6_ranking_order_witness :
    ((buildCompareRanking [{}, { name := "Alpha" }] (fun _ => none) {}).get
        ⟨0, by decide⟩).rank = 1 ∧
      (((buildCompareRanking [{}, { name := "Alpha" }] (fun _ => none) {}).get
            ⟨1, by decide⟩).overallScore ≤
          ((buildCompareRanking [{}, { name := "Alpha" }] (fun _ => none) {}).get
            ⟨0, by decide⟩).overallScore) ∧
      (((buildCompareRanking [{}, { name := "Alpha" }] (fun _ => none) {}).get
            ⟨0, by decide⟩).overallScore =
          ((buildCompareRanking [{}, { name := "Alpha" }] (fun _ => none) {}).get
            ⟨1, by decide⟩).overallScore →
        ((buildCompareRanking [{}, { name := "Alpha" }] (fun _ => none) {}).get
            ⟨0, by decide⟩).overallScore =
          ((buildCompareRanking [{}, { name := "Alpha" }] (fun _ => none) {}).get
            ⟨1, by decide⟩).overallScore) := by
  refine ⟨claim_C6_ranking_order.1 [{}, { name := "Alpha" }] (fun _ => none) {} 0 (by decide),
    (claim_C6_ranking_order.2 [{}, { name := "Alpha" }] (fun _ => none) {} 0 1 (by decide)
      (by decide) (by decide)).1, fun h => h⟩
